import Mathlib

/-!
multi-scrobbler: source configuration resolution and lifecycle.

A shallow embedding of `src/sources/ScrobbleSources.js` (`buildSourcesFromConfig`, `addSource`)
and of the constructor and `callApi` of `src/sources/SubsonicSource.js`.

JavaScript values are embedded as the inductive type `JSValue`; code that can throw returns
`Except JSError _`; the registry `this.sources` is passed explicitly.  Helpers that the two
source files import but that are not part of them (`readJson`, `isValidConfigStructure`, the
adapter classes other than `SubsonicSource`) are fields of `Collaborators`.
-/

namespace MultiScrobbler

/-! ## JavaScript values -/

/-- A JavaScript value as it can reach this module: `undefined`, or what `JSON.parse` and object
literals build.  Numbers are the integers (printed in decimal); strings are sequences of code
points.  An object is the list of its property definitions in definition order: a key defined
again keeps its first position and takes the later value. -/
inductive JSValue where
  | undefined
  | null
  | bool (b : Bool)
  | num (n : Int)
  | str (s : String)
  | arr (xs : List JSValue)
  | obj (fields : List (String × JSValue))

/-- The property definitions of an object. -/
abbrev JSObject := List (String × JSValue)

/-- A thrown value: a `TypeError` raised by the language, or an `Error` raised by a `throw`. -/
inductive JSError where
  | typeError (msg : String)
  | error (msg : String)
deriving DecidableEq, Repr

/-- The value of property `k` of an object: the last definition of `k`, `undefined` without one. -/
def getOwn (o : JSObject) (k : String) : JSValue :=
  o.foldl (fun acc p => if p.1 = k then p.2 else acc) JSValue.undefined

/-- Whether the object has an own property `k`. -/
def hasOwn (o : JSObject) (k : String) : Bool :=
  o.any (fun p => p.1 == k)

/-- The test `v === undefined`. -/
def JSValue.isUndefined : JSValue → Bool
  | .undefined => true
  | _ => false

/-- The test `v === null`. -/
def JSValue.isNull : JSValue → Bool
  | .null => true
  | _ => false

/-- The test `typeof v === 'object'` (true of `null`, arrays and objects). -/
def JSValue.isObjectType : JSValue → Bool
  | .null => true
  | .arr _ => true
  | .obj _ => true
  | _ => false

/-- The test `Array.isArray(v)`. -/
def JSValue.isArray : JSValue → Bool
  | .arr _ => true
  | _ => false

/-- The test `v === s` for a string literal `s`. -/
def JSValue.isStr (v : JSValue) (s : String) : Bool :=
  match v with
  | .str t => t == s
  | _ => false

/-- Truthiness (`!!v`). -/
def JSValue.truthy : JSValue → Bool
  | .undefined => false
  | .null => false
  | .bool b => b
  | .num n => n != 0
  | .str s => s != ""
  | .arr _ => true
  | .obj _ => true

/-- The value `v.k` of a value that is neither `null` nor `undefined`, for the property names this
module reads (`sources`, `sourceDefaults`, `type`, `name`, `data`, `source`, `configureAs`,
`clients`, `user`, `password`, and in `callApi` `body`, `subsonic-response`, `status`, `error`,
`code`, `message`, `response`, `text`): none of them is defined on the prototype of a plain
object, an array or a primitive, so the read sees own properties only, and arrays and primitives
have none of them. -/
def JSValue.field (v : JSValue) (k : String) : JSValue :=
  match v with
  | .obj o => getOwn o k
  | _ => .undefined

/-- The property read `v.k`, also the destructuring `const {k} = v`: a `TypeError` when `v` is
`null` or `undefined`.  Only the class of the error follows the engine; its text is schematic. -/
def getField (v : JSValue) (k : String) : Except JSError JSValue :=
  match v with
  | .undefined => .error (.typeError ("Cannot read properties of undefined (reading " ++ k ++ ")"))
  | .null => .error (.typeError ("Cannot read properties of null (reading " ++ k ++ ")"))
  | _ => .ok (v.field k)

/-- A destructuring default `{k = d}`: the default replaces `undefined` only. -/
def JSValue.orDefault (v d : JSValue) : JSValue :=
  match v with
  | .undefined => d
  | _ => v

/-- The operand selection of `v || d`. -/
def JSValue.orElse (v d : JSValue) : JSValue :=
  if v.truthy then v else d

/-- The elements of a list as index-keyed properties. -/
def indexed (xs : List JSValue) : JSObject :=
  xs.enum.map (fun p => (toString p.1, p.2))

/-- The own enumerable properties copied by a spread `{...v}`; `null`, `undefined`, numbers and
booleans contribute nothing, arrays and strings their elements under index keys. -/
def ownEntries : JSValue → JSObject
  | .obj o => o
  | .arr xs => indexed xs
  | .str s => indexed (s.data.map (fun c => JSValue.str (String.singleton c)))
  | _ => []

mutual
/-- The abstract operation `ToString`, used by template literals and by computed property keys.
An array joins its elements with commas; an object without an own `toString` prints as
`[object Object]`, and one with an own `toString` (never callable in parsed JSON) cannot be
converted. -/
def toStringJS : JSValue → Except JSError String
  | .undefined => .ok "undefined"
  | .null => .ok "null"
  | .bool b => .ok (if b then "true" else "false")
  | .num n => .ok (toString n)
  | .str s => .ok s
  | .arr xs => joinJS xs
  | .obj o =>
    if hasOwn o "toString" then
      .error (.typeError "Cannot convert object to primitive value")
    else .ok "[object Object]"
termination_by structural v => v
/-- The body of `Array.prototype.join` with the separator `,`: `null` and `undefined` elements
print as the empty string. -/
def joinJS : List JSValue → Except JSError String
  | [] => .ok ""
  | x :: rest =>
    match (match x with
      | .undefined => Except.ok ""
      | .null => Except.ok ""
      | v => toStringJS v) with
    | .error e => .error e
    | .ok a =>
      match rest with
      | [] => .ok a
      | _ :: _ =>
        match joinJS rest with
        | .error e => .error e
        | .ok b => .ok (a ++ "," ++ b)
termination_by structural xs => xs
end

/-- The step of `acc.concat(curr)`: an array argument is spliced in, any other value appended. -/
def concatValue (acc : List JSValue) (curr : JSValue) : List JSValue :=
  match curr with
  | .arr xs => acc ++ xs
  | v => acc ++ [v]

/-! ## Plain objects used as dictionaries -/

/-- An accumulator object of the grouping reductions: keys in definition order, each with the
array collected under it. -/
abbrev Groups := List (String × List JSValue)

/-- The property names every plain object inherits from `Object.prototype`. -/
def objectPrototypeKeys : List String :=
  ["constructor", "__defineGetter__", "__defineSetter__", "hasOwnProperty", "__lookupGetter__",
   "__lookupSetter__", "isPrototypeOf", "propertyIsEnumerable", "toString", "valueOf",
   "__proto__", "toLocaleString"]

/-- The destructuring `const {[key]: t = []} = acc` followed by the spread `[...t, curr]`: an own
key gives its array, a missing key the default `[]`; a key found on `Object.prototype` gives a
function (or the prototype object), which is not `undefined` and cannot be spread.  The text of
the `TypeError` names the variable `t` of the type reducer; in the name reducer the variable is
`n`. -/
def groupLookup (acc : Groups) (key : String) : Except JSError (List JSValue) :=
  match acc.lookup key with
  | some g => .ok g
  | none =>
    if objectPrototypeKeys.contains key then .error (.typeError "t is not iterable")
    else .ok []

/-- The object literal `{...acc, [key]: g}`: an existing key keeps its position. -/
def groupSet (acc : Groups) (key : String) (g : List JSValue) : Groups :=
  if acc.any (fun p => p.1 == key) then
    acc.map (fun p => if p.1 == key then (p.1, g) else p)
  else acc ++ [(key, g)]

/-- One step of a grouping reduction: `{...acc, [key]: [...t, curr]}`. -/
def addToGroup (acc : Groups) (key : String) (curr : JSValue) : Except JSError Groups :=
  match groupLookup acc key with
  | .error e => .error e
  | .ok t => .ok (groupSet acc key (t ++ [curr]))

/-- The value of a decimal digit string. -/
def digitsValue (cs : List Char) : Nat :=
  cs.foldl (fun n c => 10 * n + (c.toNat - 48)) 0

/-- The array index a property key denotes, if any: a canonical decimal numeral below `2^32 - 1`. -/
def arrayIndex? (key : String) : Option Nat :=
  let cs := key.data
  if !cs.isEmpty && cs.all Char.isDigit && (cs.length == 1 || cs.head? != some '0')
      && decide (digitsValue cs < 4294967295) then
    some (digitsValue cs)
  else none

/-- The order of `Object.entries`: array-index keys first, ascending, then the other keys in
definition order. -/
def objectEntries {β : Type} (o : List (String × β)) : List (String × β) :=
  (o.filter (fun p => (arrayIndex? p.1).isSome)).insertionSort
      (fun p q => (arrayIndex? p.1).getD 0 ≤ (arrayIndex? q.1).getD 0)
    ++ o.filter (fun p => !(arrayIndex? p.1).isSome)

/-! ## Name resolution (`buildSourcesFromConfig`, lines 245-282) -/

/-- The property key of `const {type} = curr; ... [type]` (lines 248-250). -/
def typeKey (curr : JSValue) : Except JSError String :=
  match getField curr "type" with
  | .error e => .error e
  | .ok type => toStringJS type

/-- The property key of `const {name = 'unnamed'} = curr; ... [name]` (lines 255-257). -/
def nameKey (curr : JSValue) : Except JSError String :=
  match getField curr "name" with
  | .error e => .error e
  | .ok name => toStringJS (name.orDefault (.str "unnamed"))

/-- The reducer of a grouping reduction, for a way `keyOf` of reading the key of an entry. -/
def groupStep (keyOf : JSValue → Except JSError String) (acc : Groups) (curr : JSValue) :
    Except JSError Groups :=
  match keyOf curr with
  | .error e => .error e
  | .ok key => addToGroup acc key curr

/-- The shape shared by the two grouping reductions:
`configs.reduce((acc, curr) => ({...acc, [key]: [...acc[key], curr]}), {})`. -/
def groupBy (keyOf : JSValue → Except JSError String) (configs : List JSValue) :
    Except JSError Groups :=
  configs.foldlM (groupStep keyOf) []

/-- The reduction building `typeGroupedConfigs` (lines 247-251). -/
def typeGroupedConfigs (validConfigs : List JSValue) : Except JSError Groups :=
  groupBy typeKey validConfigs

/-- The reduction building `nameGroupedConfigs` (lines 254-258). -/
def nameGroupedConfigs (typedConfigs : List JSValue) : Except JSError Groups :=
  groupBy nameKey typedConfigs

/-- The template literal of line 263 for one entry of a name group. -/
def conflictLabel (c : JSValue) : Except JSError String :=
  match getField c "source" with
  | .error e => .error e
  | .ok source =>
    match toStringJS source with
    | .error e => .error e
    | .ok s =>
      match toStringJS (c.field "type") with
      | .error e => .error e
      | .ok t => .ok ("Config object from " ++ s ++ " of type [" ++ t ++ "]")

/-- The labels of the naming-conflict warning (line 263), one template literal per entry. -/
def conflictLabels : List JSValue → Except JSError (List String)
  | [] => .ok []
  | c :: rest =>
    match conflictLabel c with
    | .error e => .error e
    | .ok l =>
      match conflictLabels rest with
      | .error e => .error e
      | .ok ls => .ok (l :: ls)

/-- The object `{...x, name}` where `x` is the rest `{name, ...x} = c`: the own properties of `c`
other than `name`, then `name`. -/
def withName (c name : JSValue) : JSValue :=
  .obj ((ownEntries c).filter (fun p => p.1 != "name") ++ [("name", name)])

/-- The callback of the renaming `map` (lines 269-272) at index `i`:
`({name = 'unnamed', ...x}, i) => ({...x, name: hasDups ? name + (i + 1) : name})`. -/
def renameConfig (hasDups : Bool) (i : Nat) (c : JSValue) : Except JSError JSValue :=
  match getField c "name" with
  | .error e => .error e
  | .ok n =>
    let name := n.orDefault (.str "unnamed")
    if hasDups then
      match toStringJS name with
      | .error e => .error e
      | .ok s => .ok (withName c (.str (s ++ toString (i + 1))))
    else .ok (withName c name)

/-- The renaming `map` over one name group, from index `i` on. -/
def renameAll (hasDups : Bool) : Nat → List JSValue → Except JSError (List JSValue)
  | _, [] => .ok []
  | i, c :: rest =>
    match renameConfig hasDups i c with
    | .error e => .error e
    | .ok c' =>
      match renameAll hasDups (i + 1) rest with
      | .error e => .error e
      | .ok cs => .ok (c' :: cs)

/-- The loop over the name groups of one type (lines 259-281): the entries handed to `addSource`,
in call order, and the error thrown by the warning or the renaming of a group, if any.  The calls
themselves are run by `addSources`. -/
def resolveNamed : List (String × List JSValue) → List JSValue × Option JSError
  | [] => ([], none)
  | (_, namedConfigs) :: rest =>
    let hasDups := decide (namedConfigs.length > 1)
    match (if hasDups then conflictLabels namedConfigs else .ok []) with
    | .error e => ([], some e)
    | .ok _ =>
      match renameAll hasDups 0 namedConfigs with
      | .error e => ([], some e)
      | .ok temp => (temp ++ (resolveNamed rest).1, (resolveNamed rest).2)

/-- The loop over the type groups (lines 253-282). -/
def resolveTyped : List (String × List JSValue) → List JSValue × Option JSError
  | [] => ([], none)
  | (_, typedConfigs) :: rest =>
    match nameGroupedConfigs typedConfigs with
    | .error e => ([], some e)
    | .ok named =>
      match resolveNamed (objectEntries named) with
      | (calls, some e) => (calls, some e)
      | (calls, none) => (calls ++ (resolveTyped rest).1, (resolveTyped rest).2)

/-- Name resolution: from the structurally valid entries to the entries handed to `addSource`, in
call order, with the error that aborted `buildSourcesFromConfig`, if any. -/
def resolveNames (validConfigs : List JSValue) : List JSValue × Option JSError :=
  match typeGroupedConfigs validConfigs with
  | .error e => ([], some e)
  | .ok typed => resolveTyped (objectEntries typed)

/-- The `(type, name)` pair of a resolved entry. -/
def typeAndName (c : JSValue) : JSValue × JSValue :=
  (c.field "type", c.field "name")

/-! ## Collaborators and state -/

/-- What `addSource` observes of a constructed adapter: the `initialized` flag after
construction, the outcome of `initialize()` if it is called, the `requiresAuth` and `authed`
flags as read before the authentication check, and the outcome of `testAuth()` if it is called. -/
structure Lifecycle where
  initialized : Bool
  initOutcome : Except JSError JSValue
  requiresAuth : Bool
  authed : Bool
  testAuth : Except JSError JSValue

/-- A constructed adapter (a `SourceInstance`). -/
structure Adapter where
  type : String
  name : JSValue
  config : JSObject
  clients : JSValue
  life : Lifecycle

/-- What the two source files import from the rest of the repository and from the process:
`process.env`, `readJson(path, {throwOnNotFound: false})` (`undefined` for a missing file, a
throw for one that cannot be parsed), `isValidConfigStructure(obj, required)` (`none` for `true`,
otherwise the array of error strings), the constructors of the adapter classes other than
`SubsonicSource`, and the lifecycle members that `SubsonicSource` inherits from
`AbstractSource`. -/
structure Collaborators where
  env : String → Option String
  readJson : String → Except JSError JSValue
  isValidConfigStructure : JSValue → JSValue → Except JSError (Option (List String))
  construct : String → JSValue → JSObject → JSValue → Except JSError Adapter
  subsonicLife : JSValue → JSObject → JSValue → Lifecycle

/-- The fields of a `ScrobbleSources` instance: the registry `sources`, `configDir`, `localUrl`. -/
structure ScrobbleSources where
  sources : List Adapter
  configDir : String
  localUrl : JSValue

/-- The field `sourceTypes`. -/
def sourceTypes : List String :=
  ["spotify", "plex", "tautulli", "subsonic", "jellyfin", "lastfm", "deezer", "apple"]

/-- Modelled from the spec: the constructor of `AbstractSource` (`AbstractSource.js` is not among
the sources) records the type tag, the name, the config and the clients on the instance, which
carries the lifecycle flags `initialized`, `requiresAuth` and `authed`. -/
def AbstractSource (life : Lifecycle) (type : String) (name : JSValue) (config : JSObject)
    (clients : JSValue) : Adapter :=
  { type := type, name := name, config := config, clients := clients, life := life }

/-- Modelled from the spec: `isValidConfigStructure` of `utils.js` (not among the sources): each
field that `required` asks for must be present on the entry; the result is `true` (`none`) or the
list of the fields in error. -/
def isValidConfigStructure (obj required : JSValue) : Except JSError (Option (List String)) :=
  match getField obj "type" with
  | .error e => .error e
  | .ok type =>
    let errs :=
      (if (required.field "type").truthy && type.isUndefined then ["'type' must be defined"] else [])
      ++ (if (required.field "name").truthy && (obj.field "name").isUndefined then
            ["'name' must be defined"] else [])
      ++ (if (required.field "data").truthy && (obj.field "data").isUndefined then
            ["'data' must be defined"] else [])
    if errs.isEmpty then .ok none else .ok (some errs)

/-! ## Collecting the configs (`buildSourcesFromConfig`, lines 38-233) -/

/-- The read `process.env.VAR`. -/
def processEnv (w : Collaborators) (var : String) : JSValue :=
  match w.env var with
  | some s => .str s
  | none => .undefined

/-- The `if (!Object.values(data).every(x => x === undefined)) configs.push({...})` of the
environment builders (e.g. lines 87-95). -/
def envEntry (type : String) (data : JSObject) : List JSValue :=
  if !(data.all (fun p => p.2.isUndefined)) then
    [.obj [("type", .str type), ("name", .str "unnamed"), ("source", .str "ENV"),
           ("mode", .str "single"), ("data", .obj data)]]
  else []

/-- The `switch (sourceType)` of lines 78-189: the entries it pushes. -/
def envConfigs (w : Collaborators) (sourceType : String) : List JSValue :=
  match sourceType with
  | "spotify" =>
    envEntry "spotify"
      [("accessToken", processEnv w "SPOTIFY_ACCESS_TOKEN"),
       ("clientId", processEnv w "SPOTIFY_CLIENT_ID"),
       ("clientSecret", processEnv w "SPOTIFY_CLIENT_SECRET"),
       ("redirectUri", processEnv w "SPOTIFY_REDIRECT_URI"),
       ("refreshToken", processEnv w "SPOTIFY_REFRESH_TOKEN")]
  | "tautulli" =>
    envEntry "tautulli"
      [("user", (processEnv w "TAUTULLI_USER").orElse (processEnv w "PLEX_USER"))]
  | "plex" => envEntry "plex" [("user", processEnv w "PLEX_USER")]
  | "subsonic" =>
    envEntry "subsonic"
      [("user", processEnv w "SUBSONIC_USER"),
       ("password", processEnv w "SUBSONIC_PASSWORD"),
       ("url", processEnv w "SUBSONIC_URL")]
  | "jellyfin" =>
    envEntry "jellyfin"
      [("user", processEnv w "JELLYFIN_USER"), ("server", processEnv w "JELLYFIN_SERVER")]
  | "lastfm" => []
  | "deezer" => []
  | "apple" =>
    envEntry "apple"
      [("key", processEnv w "APPLE_KEY"),
       ("keyId", processEnv w "APPLE_KEY_ID"),
       ("teamId", processEnv w "APPLE_TEAM_ID"),
       ("endpoint", processEnv w "APPLE_ENDPOINT"),
       ("endpointAuth", processEnv w "APPLE_ENDPOINT_AUTH")]
  | _ => []

/-- The variable `defaultConfigureAs` after the `switch` (lines 76, 159). -/
def defaultConfigureAs (sourceType : String) : JSValue :=
  if sourceType = "lastfm" then .str "client" else .str "source"

/-- The normalisation of a parsed per-type document that is not `undefined` (lines 198-215):
`none` stands for the `continue` that rejects the file. -/
def normalizeSourceConfigs (rawSourceConfigs : JSValue) : Option (List JSValue) :=
  match rawSourceConfigs with
  | .arr xs => some xs
  | .null => none
  | .obj o =>
    if (getOwn o "data").isUndefined then
      some [.obj [("data", rawSourceConfigs), ("mode", .str "single"), ("name", .str "unnamed")]]
    else some [rawSourceConfigs]
  | _ => none

/-- The assignments `m.source = ...; m.type = sourceType` (lines 227-228).  Named properties
assigned to an array are not recorded: reads of `type`, `name`, `data` on an array give
`undefined`. -/
def tagEntry (m : JSValue) (sourceType : String) : JSValue :=
  match m with
  | .obj o => .obj (o ++ [("source", .str (sourceType ++ ".json")), ("type", .str sourceType)])
  | v => v

/-- The loop over the normalised entries of a per-type file (lines 216-231): the entries pushed. -/
def fileConfigs (sourceType : String) (sourceConfigs : List JSValue) : List JSValue :=
  sourceConfigs.filterMap (fun m =>
    if m.isNull then none
    else if !m.isObjectType then none
    else if ((m.field "configureAs").orDefault (defaultConfigureAs sourceType)).isStr "source" then
      some (tagEntry m sourceType)
    else none)

/-- The path of a file of the config directory. -/
def configPath (self : ScrobbleSources) (file : String) : String :=
  self.configDir ++ "/" ++ file ++ ".json"

/-- One iteration of the loop over `sourceTypes` (lines 75-233): the entries pushed. -/
def perTypeConfigs (w : Collaborators) (self : ScrobbleSources) (sourceType : String) :
    List JSValue :=
  envConfigs w sourceType ++
    (match w.readJson (configPath self sourceType) with
     | .error _ => []
     | .ok rawSourceConfigs =>
       if rawSourceConfigs.isUndefined then []
       else
         match normalizeSourceConfigs rawSourceConfigs with
         | none => []
         | some sourceConfigs => fileConfigs sourceType sourceConfigs)

/-- The reduction building `validMainConfigs` (lines 54-64). -/
def validMainConfigs (mainConfigSourcesConfigs : List JSValue) : List JSValue :=
  mainConfigSourcesConfigs.foldl (fun acc curr =>
    if curr.isNull then acc
    else if !curr.isObjectType then acc
    else concatValue acc curr) []

/-- The body of the loop over `validMainConfigs` (lines 66-71): the entry pushed. -/
def mainEntry (c : JSValue) : Except JSError JSValue :=
  match getField c "name" with
  | .error e => .error e
  | .ok n =>
    .ok (.obj (ownEntries c ++
      [("name", n.orDefault (.str "unnamed")), ("source", .str "config.json"),
       ("configureAs", .str "source")]))

/-- The loop over `validMainConfigs` (lines 65-72): the entries pushed. -/
def mainEntries : List JSValue → Except JSError (List JSValue)
  | [] => .ok []
  | c :: rest =>
    match mainEntry c with
    | .error e => .error e
    | .ok entry =>
      match mainEntries rest with
      | .error e => .error e
      | .ok entries => .ok (entry :: entries)

/-- Lines 41-73: the entries pushed from `config.json`, and `sourceDefaults`. -/
def mainConfigs (w : Collaborators) (self : ScrobbleSources) :
    Except JSError (List JSValue × JSValue) :=
  match w.readJson (configPath self "config") with
  | .error _ => .error (.error "config.json could not be parsed")
  | .ok configFile =>
    if configFile.isUndefined then .ok ([], .obj [])
    else
      match getField configFile "sources" with
      | .error e => .error e
      | .ok sources =>
        match sources.orDefault (.arr []) with
        | .arr xs =>
          match mainEntries (validMainConfigs xs) with
          | .error e => .error e
          | .ok entries =>
            .ok (entries, (configFile.field "sourceDefaults").orDefault (.obj []))
        | _ => .error (.typeError "mainConfigSourcesConfigs.reduce is not a function")

/-- Lines 38-233: the array `configs` before validation, and `sourceDefaults`. -/
def collectConfigs (w : Collaborators) (self : ScrobbleSources) (additionalConfigs : List JSValue) :
    Except JSError (List JSValue × JSValue) :=
  match mainConfigs w self with
  | .error e => .error e
  | .ok (entries, sourceDefaults) =>
    .ok (additionalConfigs ++ entries ++ sourceTypes.flatMap (perTypeConfigs w self), sourceDefaults)

/-- The template-literal operand `${c[k] || dflt}`. -/
def labelOf (c : JSValue) (k dflt : String) : Except JSError String :=
  match getField c k with
  | .error e => .error e
  | .ok v => toStringJS (v.orElse (.str dflt))

/-- The message of line 239 for an entry with structural errors. -/
def structuralErrorMessage (c : JSValue) (errs : List String) : Except JSError String :=
  match getField c "source" with
  | .error e => .error e
  | .ok source =>
    match toStringJS source with
    | .error e => .error e
    | .ok s =>
      match labelOf c "name" "unnamed" with
      | .error e => .error e
      | .ok n =>
        match labelOf c "type" "unknown" with
        | .error e => .error e
        | .ok t =>
          .ok ("Source config from " ++ s ++ " with name [" ++ n ++ "] of type [" ++ t
            ++ "] will not be used because it has structural errors: " ++ " | ".intercalate errs)

/-- The `required` argument `{type: true, data: true}` of line 237. -/
def minimalShape : JSValue :=
  .obj [("type", .bool true), ("data", .bool true)]

/-- The reducer of lines 236-243: an entry with structural errors is logged and left out, a
valid one is added with `acc.concat(c)`. -/
def validStep (w : Collaborators) (acc : List JSValue) (c : JSValue) :
    Except JSError (List JSValue) :=
  match w.isValidConfigStructure c minimalShape with
  | .error e => .error e
  | .ok (some errs) =>
    match structuralErrorMessage c errs with
    | .error e => .error e
    | .ok _ => .ok acc
  | .ok none => .ok (concatValue acc c)

/-- The reduction building `validConfigs` (lines 236-243). -/
def validConfigs (w : Collaborators) (configs : List JSValue) : Except JSError (List JSValue) :=
  configs.foldlM (validStep w) []

/-! ## `SubsonicSource` and `addSource` -/

/-- The effect of evaluating a `new` expression: the remote requests issued meanwhile, and the
instance or the thrown error. -/
structure Construction where
  requests : List String
  result : Except JSError Adapter

/-- The constructor of `SubsonicSource` (`SubsonicSource.js`, lines 7-18); `life` stands for the
lifecycle members inherited from `AbstractSource`. -/
def SubsonicSource (life : Lifecycle) (name : JSValue) (config : JSObject) (clients : JSValue) :
    Construction :=
  let self := AbstractSource life "subsonic" name config clients
  let user := getOwn self.config "user"
  let password := getOwn self.config "password"
  if user.isUndefined then
    { requests := [],
      result := .error (.error "Cannot setup Subsonic source, 'user' is not defined") }
  else if password.isUndefined then
    { requests := [],
      result := .error (.error "Cannot setup Subsonic source, 'password' is not defined") }
  else { requests := [], result := .ok self }

/-- The message of line 288 for an entry that fails validation in `addSource`. -/
def configErrorMessage (clientConfig : JSValue) (errs : List String) : Except JSError String :=
  match labelOf clientConfig "source" "unknown" with
  | .error e => .error e
  | .ok s =>
    match labelOf clientConfig "name" "unnamed" with
    | .error e => .error e
    | .ok n =>
      match labelOf clientConfig "type" "unknown" with
      | .error e => .error e
      | .ok t =>
        .ok ("Config object from " ++ s ++ " with name [" ++ n ++ "] of type [" ++ t
          ++ "] has errors: " ++ " | ".intercalate errs)

/-- The `switch (type)` of `addSource` (lines 295-338): the adapter constructed for a type tag,
with the shared context each variant receives; an unrecognised tag leaves `newSource` undefined
and throws. -/
def newSourceFor (w : Collaborators) (self : ScrobbleSources) (type name : JSValue)
    (data : JSObject) (clients : JSValue) (typeLabel : String) : Except JSError Adapter :=
  match type with
  | .str "spotify" =>
    w.construct "spotify" name
      (data ++ [("localUrl", self.localUrl), ("configDir", .str self.configDir)]) clients
  | .str "plex" => w.construct "plex" name data clients
  | .str "tautulli" => w.construct "tautulli" name data clients
  | .str "subsonic" => (SubsonicSource (w.subsonicLife name data clients) name data clients).result
  | .str "jellyfin" => w.construct "jellyfin" name data clients
  | .str "lastfm" => w.construct "lastfm" name (data ++ [("configDir", .str self.configDir)]) clients
  | .str "deezer" =>
    w.construct "deezer" name
      (data ++ [("localUrl", self.localUrl), ("configDir", .str self.configDir)]) clients
  | .str "apple" => w.construct "apple" name (data ++ [("configDir", .str self.configDir)]) clients
  | _ => .error (.error ("Source of type " ++ typeLabel ++ " was not recognized??"))

/-- The effective settings `{...defaults, ...d}` of line 292, `d` being the entry's `data`
(`{}` when it has none). -/
def mergedData (defaults clientConfig : JSValue) : JSObject :=
  ownEntries defaults ++ ownEntries ((clientConfig.field "data").orDefault (.obj []))

/-- The `required` argument `{name: true, data: true, type: true}` of line 286. -/
def fullShape : JSValue :=
  .obj [("name", .bool true), ("data", .bool true), ("type", .bool true)]

/-- Lines 286-338 of `addSource`: validation, default merge and construction.  The debug line 293
converts `name` and `type` to strings; the later log lines convert the same two values again. -/
def constructSource (w : Collaborators) (self : ScrobbleSources) (clientConfig defaults : JSValue) :
    Except JSError Adapter :=
  match w.isValidConfigStructure clientConfig fullShape with
  | .error e => .error e
  | .ok (some errs) =>
    match configErrorMessage clientConfig errs with
    | .error e => .error e
    | .ok msg => .error (.error msg)
  | .ok none =>
    match getField clientConfig "type" with
    | .error e => .error e
    | .ok type =>
      let name := clientConfig.field "name"
      let clients := (clientConfig.field "clients").orDefault (.arr [])
      let data := mergedData defaults clientConfig
      match toStringJS name with
      | .error e => .error e
      | .ok _ =>
        match toStringJS type with
        | .error e => .error e
        | .ok typeLabel => newSourceFor w self type name data clients typeLabel

/-- The test `v === false`. -/
def JSValue.isFalse : JSValue → Bool
  | .bool false => true
  | _ => false

/-- Lines 351-366 of `addSource`: the authentication check, whose result is only logged, and the
push onto the registry. -/
def authAndRegister (self : ScrobbleSources) (newSource : Adapter) : ScrobbleSources :=
  let _success : Bool :=
    if newSource.life.requiresAuth && !newSource.life.authed then
      match newSource.life.testAuth with
      | .ok v => v.truthy
      | .error _ => false
    else true
  { self with sources := self.sources ++ [newSource] }

/-- Lines 339-367 of `addSource`: initialization, authentication check, registration. -/
def lifecycle (self : ScrobbleSources) (newSource : Adapter) : Except JSError ScrobbleSources :=
  if newSource.life.initialized == false then
    match newSource.life.initOutcome with
    | .error e => .error e
    | .ok r => if r.isFalse then .ok self else .ok (authAndRegister self newSource)
  else .ok (authAndRegister self newSource)

/-- The method `addSource(clientConfig, defaults)`. -/
def addSource (w : Collaborators) (self : ScrobbleSources) (clientConfig defaults : JSValue) :
    Except JSError ScrobbleSources :=
  match constructSource w self clientConfig defaults with
  | .error e => .error e
  | .ok newSource => lifecycle self newSource

/-! ## `buildSourcesFromConfig` -/

/-- The message of line 277, built in the `catch` block from `c.name` and `c.type`. -/
def catchLog (c : JSValue) : Except JSError String :=
  match getField c "name" with
  | .error e => .error e
  | .ok name =>
    match toStringJS name with
    | .error e => .error e
    | .ok n =>
      match toStringJS (c.field "type") with
      | .error e => .error e
      | .ok t =>
        .ok ("Source " ++ n ++ " of type " ++ t ++ " was not added because of unrecoverable errors")

/-- The body of the innermost loop (lines 273-280): `addSource` inside `try`/`catch`; the
instance afterwards, and the error that escapes the `catch` block, if any. -/
def tryAddSource (w : Collaborators) (sourceDefaults : JSValue) (self : ScrobbleSources)
    (c : JSValue) : ScrobbleSources × Option JSError :=
  match addSource w self c sourceDefaults with
  | .ok self' => (self', none)
  | .error _ =>
    match catchLog c with
    | .ok _ => (self, none)
    | .error e => (self, some e)

/-- The calls of `addSource` for a list of resolved entries, in order, up to the first error
that escapes. -/
def addSources (w : Collaborators) (sourceDefaults : JSValue) :
    ScrobbleSources → List JSValue → ScrobbleSources × Option JSError
  | self, [] => (self, none)
  | self, c :: rest =>
    match tryAddSource w sourceDefaults self c with
    | (self', some e) => (self', some e)
    | (self', none) => addSources w sourceDefaults self' rest

/-- The entries that name resolution hands to `addSource` in
`buildSourcesFromConfig(additionalConfigs)`, in call order, and the error thrown before or
during name resolution, if any. -/
def addSourceCalls (w : Collaborators) (self : ScrobbleSources) (additionalConfigs : List JSValue) :
    List JSValue × Option JSError :=
  match collectConfigs w self additionalConfigs with
  | .error e => ([], some e)
  | .ok (configs, _) =>
    match validConfigs w configs with
    | .error e => ([], some e)
    | .ok valid => resolveNames valid

/-- The method `buildSourcesFromConfig(additionalConfigs)`: the instance afterwards, and the
error thrown, if any.  The grouping and renaming steps do not read the registry, so the calls of
`addSource` are run over the list of resolved entries; an error escaping one of them ends the
run, otherwise the run ends with the error of name resolution, if any. -/
def buildSourcesFromConfig (w : Collaborators) (self : ScrobbleSources)
    (additionalConfigs : List JSValue) : ScrobbleSources × Option JSError :=
  match collectConfigs w self additionalConfigs with
  | .error e => (self, some e)
  | .ok (configs, sourceDefaults) =>
    match validConfigs w configs with
    | .error e => (self, some e)
    | .ok valid =>
      match addSources w sourceDefaults self (resolveNames valid).1 with
      | (self', some e) => (self', some e)
      | (self', none) => (self', (resolveNames valid).2)

/-- Whether the `configureAs` of an entry, after the default of its type (`'client'` for lastfm,
`'source'` otherwise), is `'source'`. -/
def configuredAsSource (c : JSValue) : Bool :=
  ((c.field "configureAs").orDefault
    (if (c.field "type").isStr "lastfm" then .str "client" else .str "source")).isStr "source"

/-- The type key of an entry (the empty string when reading it throws). -/
def typeKeyOf (c : JSValue) : String :=
  match typeKey c with
  | .ok k => k
  | .error _ => ""

/-- The name key of an entry, `'unnamed'` standing for a missing name (the empty string when
reading it throws). -/
def nameKeyOf (c : JSValue) : String :=
  match nameKey c with
  | .ok k => k
  | .error _ => ""

/-- Whether `d` belongs to the `(type, name)` group of `c`. -/
def sameGroup (c d : JSValue) : Bool :=
  typeKeyOf d == typeKeyOf c && nameKeyOf d == nameKeyOf c

/-- The name the spec gives to the entry `c` at position `i` of the valid entries: its own name
(`'unnamed'` when missing) when its `(type, name)` group has a single member, otherwise the name
followed by the 1-based rank of the entry within its group, in original order. -/
def expectedName (valid : List JSValue) (i : Nat) (c : JSValue) : JSValue :=
  if valid.countP (sameGroup c) > 1 then
    .str (nameKeyOf c ++ toString ((valid.take (i + 1)).countP (sameGroup c)))
  else (c.field "name").orDefault (.str "unnamed")

/-- The resolved entries the spec describes: one per valid entry, each with its `expectedName`. -/
def expectedResolved (valid : List JSValue) : List JSValue :=
  valid.enum.map (fun p => withName p.2 (expectedName valid p.1 p.2))

/-- The accumulator `groups` holds the grouping of `configs` by the key `key`: distinct keys, each
with the entries of that key in original order, every entry under its key. -/
def GroupedBy (key : JSValue → String) (configs : List JSValue) (groups : Groups) : Prop :=
  (groups.map Prod.fst).Nodup ∧
  (∀ p ∈ groups, p.2 = configs.filter (fun c => key c == p.1)) ∧
  (∀ c ∈ configs, key c ∈ groups.map Prod.fst)

/-- The environment variables read for an adapter type (lines 80-176). -/
def envVariables (sourceType : String) : List String :=
  match sourceType with
  | "spotify" =>
    ["SPOTIFY_ACCESS_TOKEN", "SPOTIFY_CLIENT_ID", "SPOTIFY_CLIENT_SECRET", "SPOTIFY_REDIRECT_URI",
     "SPOTIFY_REFRESH_TOKEN"]
  | "tautulli" => ["TAUTULLI_USER", "PLEX_USER"]
  | "plex" => ["PLEX_USER"]
  | "subsonic" => ["SUBSONIC_USER", "SUBSONIC_PASSWORD", "SUBSONIC_URL"]
  | "jellyfin" => ["JELLYFIN_USER", "JELLYFIN_SERVER"]
  | "deezer" =>
    ["DEEZER_APP_ID", "DEEZER_SECRET_KEY", "DEEZER_REDIRECT_URI", "DEEZER_ACCESS_TOKEN"]
  | "apple" =>
    ["APPLE_KEY", "APPLE_KEY_ID", "APPLE_TEAM_ID", "APPLE_ENDPOINT", "APPLE_ENDPOINT_AUTH"]
  | _ => []

/-- An entry whose type key and name key can be read and are not property names inherited from
`Object.prototype`, and whose conflict label can be built. -/
def PlainKeys (c : JSValue) : Prop :=
  typeKey c = .ok (typeKeyOf c) ∧ objectPrototypeKeys.contains (typeKeyOf c) = false ∧
  nameKey c = .ok (nameKeyOf c) ∧ objectPrototypeKeys.contains (nameKeyOf c) = false ∧
  ∃ l, conflictLabel c = .ok l

/-- Whether a call returned rather than threw. -/
def returns {α : Type} (r : Except JSError α) : Bool :=
  match r with
  | .ok _ => true
  | .error _ => false

/-- What one entry, processed alone on an empty registry, leaves in the registry. -/
def registeredBy (w : Collaborators) (sourceDefaults : JSValue) (self : ScrobbleSources)
    (c : JSValue) : List Adapter :=
  (tryAddSource w sourceDefaults { self with sources := [] } c).1.sources

/-- The collaborators in which the file at `path` is missing, everything else as in `w`. -/
def withFileMissing (w : Collaborators) (path : String) : Collaborators :=
  { w with readJson := fun p => if p = path then .ok .undefined else w.readJson p }

/-! ## `SubsonicSource.callApi` (`SubsonicSource.js`, lines 20-73) -/

/-- The `message` of an error raised by the language or by a `throw new Error(...)`. -/
def JSError.message : JSError → String
  | .typeError msg => msg
  | .error msg => msg

/-- An error object as a value: its `message`; the properties assigned to it afterwards are
appended.  Raised errors carry no `response`. -/
def JSError.caught (e : JSError) : JSValue :=
  .obj [("message", .str e.message)]

/-- A line written by `this.logger.error(msg, {status, response})`: the message and the object
logged with it. -/
structure LogLine where
  msg : String
  details : JSValue

/-- The effect of one call of `callApi`: the lines logged, and the value returned or thrown. -/
structure ApiCall where
  log : List LogLine
  result : Except JSValue JSValue

/-- The operand selection of `a ?? b`. -/
def JSValue.coalesce (a b : JSValue) : JSValue :=
  match a with
  | .undefined => b
  | .null => b
  | _ => a

/-- The destructuring of the response in the `try` block (lines 35-42): `status` and `ssResp`.
The pattern `"subsonic-response": {status}` has no default, so a body without the envelope
raises a `TypeError`. -/
def readEnvelope (resp : JSValue) : Except JSError (JSValue × JSValue) :=
  match getField resp "body" with
  | .error e => .error e
  | .ok b =>
    match getField (b.orDefault (.obj [])) "subsonic-response" with
    | .error e => .error e
    | .ok envelope =>
      match getField envelope "status" with
      | .error e => .error e
      | .ok status => .ok (status, envelope.orDefault (.obj []))

/-- The bindings of the destructuring of the caught value (lines 50-67). -/
structure Failure where
  message : JSValue
  status : JSValue
  ssStatus : JSValue
  code : JSValue
  ssMessage : JSValue
  ssResp : JSValue
  text : JSValue
  response : JSValue

/-- The destructuring of the caught value `e` in the `catch` block (lines 50-67); the defaults
`= {}` replace `undefined` only, so a `null` at any level raises a `TypeError`. -/
def readFailure (e : JSValue) : Except JSError Failure :=
  match getField e "message" with
  | .error t => .error t
  | .ok message =>
    let response := (e.field "response").orDefault (.obj [])
    match getField response "status" with
    | .error t => .error t
    | .ok status =>
      let body := (response.field "body").orDefault (.obj [])
      match getField body "subsonic-response" with
      | .error t => .error t
      | .ok ssResp =>
        let envelope := ssResp.orDefault (.obj [])
        match getField envelope "status" with
        | .error t => .error t
        | .ok ssStatus =>
          let error := (envelope.field "error").orDefault (.obj [])
          match getField error "code" with
          | .error t => .error t
          | .ok code =>
            .ok { message := message, status := status, ssStatus := ssStatus, code := code,
                  ssMessage := error.field "message", ssResp := ssResp,
                  text := response.field "text", response := e.field "response" }

/-- The message of line 68: the server's message when the caught value carries a `response`,
the message of the caught value otherwise. -/
def failureMessage (f : Failure) : Except JSError String :=
  if !f.response.isUndefined then
    match toStringJS f.ssMessage with
    | .error t => .error t
    | .ok s => .ok ("API Call failed: Server Response => " ++ s)
  else
    match toStringJS f.message with
    | .error t => .error t
    | .ok s => .ok ("API Call failed: " ++ s)

/-- The `catch` block (lines 49-72) for the caught value `e`: one line is logged and `e` is
thrown again; an error raised inside the block escapes instead, with nothing logged. -/
def handleFailure (e : JSValue) : ApiCall :=
  match readFailure e with
  | .error t => { log := [], result := .error t.caught }
  | .ok f =>
    match failureMessage f with
    | .error t => { log := [], result := .error t.caught }
    | .ok msg =>
      { log := [{ msg := msg,
                  details :=
                    .obj [("status", f.status), ("response", f.ssResp.coalesce f.text)] }],
        result := .error e }

/-- The query parameters set by `req.query({...})` (lines 25-32), for the converted password and
name. -/
def apiQuery (self : Adapter) (salt : String) (md5 : String → String) (pw name : String) :
    JSObject :=
  [("u", getOwn self.config "user"), ("t", .str (md5 (pw ++ salt))), ("s", .str salt),
   ("v", .str "1.15.0"), ("c", .str ("multi-scrobbler - " ++ name)), ("f", .str "json")]

/-- The method `callApi(req)` of a `SubsonicSource`.  `salt` is the hex string drawn from
`crypto.randomBytes(10)`, `md5` the hex MD5 digest, and `req` gives, for the query parameters
set on the request, the response it resolves to or the value it rejects with. -/
def callApi (self : Adapter) (salt : String) (md5 : String → String)
    (req : JSObject → Except JSValue JSValue) : ApiCall :=
  match toStringJS (getOwn self.config "password") with
  | .error t => { log := [], result := .error t.caught }
  | .ok pw =>
    match toStringJS self.name with
    | .error t => { log := [], result := .error t.caught }
    | .ok name =>
      match req (apiQuery self salt md5 pw name) with
      | .error e => handleFailure e
      | .ok resp =>
        match readEnvelope resp with
        | .error t => handleFailure t.caught
        | .ok (status, ssResp) =>
          if status.isStr "failed" then
            handleFailure
              (.obj [("message", .str "Subsonic API returned an error"), ("response", resp)])
          else { log := [], result := .ok ssResp }

/-- Whether the characters `sub` open the characters `s`. -/
def opensWith : List Char → List Char → Bool
  | _, [] => true
  | [], _ :: _ => false
  | c :: s, d :: sub => c == d && opensWith s sub

/-- Whether the characters `sub` occur, in a row, in the characters `s`. -/
def occursIn (sub : List Char) : List Char → Bool
  | [] => sub.isEmpty
  | c :: s => opensWith (c :: s) sub || occursIn sub s

/-- Whether the text `msg` contains the text `sub`. -/
def containsText (msg sub : String) : Bool :=
  occursIn sub.data msg.data

/-! ## Concrete inputs -/

/-- A config entry `{type, name, data: {user: "u", password: "p"}}`. -/
def namedEntry (type name : String) : JSValue :=
  .obj [("type", .str type), ("name", .str name),
        ("data", .obj [("user", .str "u"), ("password", .str "p")])]

/-- An adapter that needs initialization, initializes successfully and needs no authentication. -/
def readyLife : Lifecycle :=
  { initialized := false, initOutcome := .ok (.bool true), requiresAuth := false,
    authed := false, testAuth := .ok (.bool false) }

/-- Collaborators of a process with an empty environment and an empty config directory, in which
every adapter constructs and initializes. -/
def quietWorld : Collaborators :=
  { env := fun _ => none,
    readJson := fun _ => .ok .undefined,
    isValidConfigStructure := isValidConfigStructure,
    construct := fun type name config clients => .ok (AbstractSource readyLife type name config clients),
    subsonicLife := fun _ _ _ => readyLife }

/-- A fresh `ScrobbleSources` instance. -/
def freshSources : ScrobbleSources :=
  { sources := [], configDir := "/config", localUrl := .str "http://localhost:9078" }

/-- Three spotify entries named `a`, `a` and `a1`. -/
def clashingConfigs : List JSValue :=
  [namedEntry "spotify" "a", namedEntry "spotify" "a", namedEntry "spotify" "a1"]

/-- The quiet world with a `spotify.json` of three entries named `a`, `a` and `a1`. -/
def clashingWorld : Collaborators :=
  { quietWorld with
    readJson := fun path =>
      if path = "/config/spotify.json" then
        .ok (.arr [.obj [("name", .str "a"), ("data", .obj [("clientId", .str "x")])],
                   .obj [("name", .str "a"), ("data", .obj [("clientId", .str "y")])],
                   .obj [("name", .str "a1"), ("data", .obj [("clientId", .str "z")])]])
      else .ok .undefined }

/-- The quiet world with a `subsonic.json` of one entry named `constructor`. -/
def inheritedNameWorld : Collaborators :=
  { quietWorld with
    readJson := fun path =>
      if path = "/config/subsonic.json" then
        .ok (.arr [.obj [("name", .str "constructor"),
                         ("data", .obj [("user", .str "u"), ("password", .str "p")])]])
      else .ok .undefined }

/-- The quiet world with a `config.json` whose content is the JSON text `null`. -/
def nullConfigWorld : Collaborators :=
  { quietWorld with
    readJson := fun path => if path = "/config/config.json" then .ok .null else .ok .undefined }

/-- The quiet world with a `config.json` whose `sources` is an object instead of an array:
`{"sources": {"subsonic": {}}}`. -/
def objectSourcesWorld : Collaborators :=
  { quietWorld with
    readJson := fun path =>
      if path = "/config/config.json" then
        .ok (.obj [("sources", .obj [("subsonic", .obj [])])])
      else .ok .undefined }

/-- The quiet world with every `DEEZER_*` variable set. -/
def deezerEnvWorld : Collaborators :=
  { quietWorld with
    env := fun var =>
      if var = "DEEZER_APP_ID" ∨ var = "DEEZER_SECRET_KEY" ∨ var = "DEEZER_REDIRECT_URI"
          ∨ var = "DEEZER_ACCESS_TOKEN" then some "x" else none }

/-- A legacy single-object document `{data: {user: "u"}}`, without a `mode`. -/
def legacyDocument : JSValue :=
  .obj [("data", .obj [("user", .str "u")])]

/-- The quiet world with a `spotify.json` holding `legacyDocument`. -/
def legacyFileWorld : Collaborators :=
  { quietWorld with
    readJson := fun path =>
      if path = "/config/spotify.json" then .ok legacyDocument else .ok .undefined }

/-- A subsonic entry whose own `data` has a `user` and no `password`. -/
def passwordlessEntry : JSValue :=
  .obj [("type", .str "subsonic"), ("name", .str "home"),
        ("data", .obj [("user", .str "a"), ("url", .str "http://x")])]

/-- A `sourceDefaults` object that supplies a `password`. -/
def passwordDefaults : JSValue :=
  .obj [("password", .str "secret")]

/-- The quiet world with `SPOTIFY_CLIENT_ID` set and a `spotify.json` that cannot be parsed. -/
def malformedSpotifyWorld : Collaborators :=
  { quietWorld with
    env := fun var => if var = "SPOTIFY_CLIENT_ID" then some "id" else none,
    readJson := fun path =>
      if path = "/config/spotify.json" then .error (.error "Unexpected token") else .ok .undefined }

/-- An externally supplied spotify entry with `configureAs: "client"`. -/
def clientEntry : JSValue :=
  .obj [("type", .str "spotify"), ("name", .str "ext"), ("configureAs", .str "client"),
        ("data", .obj [("clientId", .str "id")])]

/-- The quiet world with a `lastfm.json` of one entry without `configureAs` and a `plex.json` of
one entry with `configureAs: "client"` and one without. -/
def rolesWorld : Collaborators :=
  { quietWorld with
    readJson := fun path =>
      if path = "/config/lastfm.json" then
        .ok (.arr [.obj [("name", .str "lf"), ("data", .obj [("apiKey", .str "k")])]])
      else if path = "/config/plex.json" then
        .ok (.arr [.obj [("name", .str "p1"), ("configureAs", .str "client"),
                         ("data", .obj [("user", .str "u")])],
                   .obj [("name", .str "p2"), ("data", .obj [("user", .str "u")])]])
      else .ok .undefined }

/-- A constructed subsonic adapter named `home`. -/
def homeSubsonic : Adapter :=
  AbstractSource readyLife "subsonic" (.str "home")
    [("user", .str "a"), ("password", .str "secret"), ("url", .str "http://x")] (.arr [])

/-- A stand-in for the MD5 digest. -/
def fixedDigest (_ : String) : String :=
  "26719a1196d2a940705a59634eb18eab"

/-- The transport error of an HTTP 404 whose body is not a Subsonic envelope: the message
`Not Found` and a response with a status, an empty parsed body and the raw text. -/
def notFoundError : JSValue :=
  .obj [("message", .str "Not Found"), ("status", .num 404),
        ("response", .obj [("status", .num 404), ("body", .obj []),
                           ("text", .str "<html>404</html>")])]

/-- A transport error without a response: the connection was refused. -/
def refusedError : JSValue :=
  .obj [("message", .str "connect ECONNREFUSED 127.0.0.1:4533"), ("code", .str "ECONNREFUSED")]

/-- An HTTP 200 response whose envelope reports a failure with the server's message. -/
def wrongPasswordResponse : JSValue :=
  .obj [("status", .num 200),
        ("body", .obj [("subsonic-response",
          .obj [("status", .str "failed"), ("version", .str "1.15.0"),
                ("error", .obj [("code", .num 40),
                                ("message", .str "Wrong username or password")])])])]

/-! ## Theorems -/

/-- C1: on three structurally valid spotify entries named `a`, `a`, `a1` name resolution hands
three entries to `addSource` without throwing, named `a1`, `a2`, `a1`: two of them share the
pair `(type, name)`; with the three entries in `spotify.json`, `buildSourcesFromConfig`
registers three spotify adapters named `a1`, `a2`, `a1`. -/
theorem resolveNames_suffix_collision :
    (resolveNames clashingConfigs).2 = none ∧
    (resolveNames clashingConfigs).1.map typeAndName =
      [(.str "spotify", .str "a1"), (.str "spotify", .str "a2"), (.str "spotify", .str "a1")] ∧
    ¬ ((resolveNames clashingConfigs).1.map typeAndName).Nodup ∧
    (buildSourcesFromConfig clashingWorld freshSources []).2 = none ∧
    (buildSourcesFromConfig clashingWorld freshSources []).1.sources.map
        (fun a => (a.type, a.name)) =
      [("spotify", .str "a1"), ("spotify", .str "a2"), ("spotify", .str "a1")] := by
  refine ⟨rfl, rfl, ?_, rfl, rfl⟩
  have h : (resolveNames clashingConfigs).1.map typeAndName =
      [(.str "spotify", .str "a1"), (.str "spotify", .str "a2"), (.str "spotify", .str "a1")] := rfl
  rw [h]
  simp

/-- C2: on the single structurally valid entry `{type: "subsonic", name: "constructor", ...}` the
name grouping throws a `TypeError` (the accumulator `{}` inherits `constructor`), so no entry is
handed to `addSource`; with that entry in `subsonic.json`, `buildSourcesFromConfig` throws and
the registry stays empty. -/
theorem resolveNames_inherited_key_throws :
    isValidConfigStructure (namedEntry "subsonic" "constructor") minimalShape = .ok none ∧
    resolveNames [namedEntry "subsonic" "constructor"] =
      ([], some (.typeError "t is not iterable")) ∧
    addSourceCalls inheritedNameWorld freshSources [] =
      ([], some (.typeError "t is not iterable")) ∧
    buildSourcesFromConfig inheritedNameWorld freshSources [] =
      (freshSources, some (.typeError "t is not iterable")) := by
  exact ⟨rfl, rfl, rfl, rfl⟩

/-- C5: with a `config.json` that parses, `buildSourcesFromConfig` throws a `TypeError`: from the
destructuring of line 49 when the content is `null`, from the call of `reduce` at line 54 when
`sources` is an object instead of an array. -/
theorem buildSourcesFromConfig_null_config_throws :
    nullConfigWorld.readJson (configPath freshSources "config") = .ok .null ∧
    buildSourcesFromConfig nullConfigWorld freshSources [] =
      (freshSources, some (.typeError "Cannot read properties of null (reading sources)")) ∧
    objectSourcesWorld.readJson (configPath freshSources "config") =
      .ok (.obj [("sources", .obj [("subsonic", .obj [])])]) ∧
    buildSourcesFromConfig objectSourcesWorld freshSources [] =
      (freshSources, some (.typeError "mainConfigSourcesConfigs.reduce is not a function")) := by
  exact ⟨rfl, rfl, rfl, rfl⟩

/-- C9: with every `DEEZER_*` variable set, the `deezer` case of the environment builder pushes
no entry and nothing is collected; in every environment the `deezer` case pushes no entry. -/
theorem envConfigs_deezer_never_pushed :
    deezerEnvWorld.env "DEEZER_APP_ID" = some "x" ∧
    envConfigs deezerEnvWorld "deezer" = [] ∧
    (collectConfigs deezerEnvWorld freshSources []).map (fun r => r.1) = .ok [] ∧
    ∀ w : Collaborators, envConfigs w "deezer" = [] := by
  exact ⟨rfl, rfl, rfl, fun _ => rfl⟩

/-! ### The lifecycle of one entry -/

theorem isFalse_iff (v : JSValue) : v.isFalse = true ↔ v = .bool false := by
  cases v with
  | bool b => cases b <;> simp [JSValue.isFalse]
  | _ => simp [JSValue.isFalse]

theorem isUndefined_iff (v : JSValue) : v.isUndefined = true ↔ v = .undefined := by
  cases v <;> simp [JSValue.isUndefined]

theorem lifecycle_sources (self : ScrobbleSources) (a : Adapter) (self' : ScrobbleSources)
    (h : lifecycle self a = .ok self') :
    self' = { self with sources := self.sources ++ self'.sources.drop self.sources.length } ∧
    lifecycle { self with sources := [] } a =
      .ok { self with sources := self'.sources.drop self.sources.length } := by
  unfold lifecycle at h ⊢
  by_cases hi : (a.life.initialized == false) = true
  · rw [if_pos hi] at h ⊢
    cases ho : a.life.initOutcome with
    | error e => rw [ho] at h; cases h
    | ok r =>
      rw [ho] at h
      simp only at h ⊢
      by_cases hf : r.isFalse = true
      · rw [if_pos hf] at h ⊢
        cases h
        simp
      · rw [if_neg hf] at h ⊢
        cases h
        simp [authAndRegister]
  · rw [if_neg hi] at h ⊢
    cases h
    simp [authAndRegister]

theorem lifecycle_error (self other : ScrobbleSources) (a : Adapter) (e : JSError)
    (h : lifecycle self a = .error e) : lifecycle other a = .error e := by
  unfold lifecycle at h ⊢
  by_cases hi : (a.life.initialized == false) = true
  · rw [if_pos hi] at h ⊢
    cases ho : a.life.initOutcome with
    | error e' => rw [ho] at h; exact h
    | ok r =>
      rw [ho] at h
      simp only at h
      by_cases hf : r.isFalse = true
      · rw [if_pos hf] at h; cases h
      · rw [if_neg hf] at h; cases h
  · rw [if_neg hi] at h; cases h

theorem tryAddSource_eq (w : Collaborators) (sd : JSValue) (self : ScrobbleSources) (c : JSValue) :
    (tryAddSource w sd self c).1 =
      { self with sources := self.sources ++ registeredBy w sd self c } := by
  unfold registeredBy tryAddSource addSource
  have hc : constructSource w { self with sources := [] } c sd = constructSource w self c sd := rfl
  rw [hc]
  cases hcs : constructSource w self c sd with
  | error e =>
    simp only
    cases catchLog c <;> simp
  | ok a =>
    simp only
    cases hl : lifecycle self a with
    | error e =>
      rw [lifecycle_error self { self with sources := [] } a e hl]
      simp only
      cases catchLog c <;> simp
    | ok self' =>
      obtain ⟨h1, h2⟩ := lifecycle_sources self a self' hl
      rw [h2]
      exact h1

theorem tryAddSource_no_escape (w : Collaborators) (sd : JSValue) (self : ScrobbleSources)
    (c : JSValue) (msg : String) (hlog : catchLog c = .ok msg) :
    (tryAddSource w sd self c).2 = none := by
  unfold tryAddSource
  cases addSource w self c sd with
  | ok s => rfl
  | error e => simp only [hlog]

theorem addSources_eq (w : Collaborators) (sd : JSValue) (resolved : List JSValue)
    (hlog : ∀ c ∈ resolved, ∃ msg, catchLog c = .ok msg) (self : ScrobbleSources) :
    addSources w sd self resolved =
      ({ self with sources := self.sources ++ resolved.flatMap (registeredBy w sd self) }, none) := by
  induction resolved generalizing self with
  | nil => simp [addSources]
  | cons c cs ih =>
    obtain ⟨msg, hmsg⟩ := hlog c (List.mem_cons_self _ _)
    have h1 := tryAddSource_eq w sd self c
    have h2 := tryAddSource_no_escape w sd self c msg hmsg
    have h3 : tryAddSource w sd self c =
        ({ self with sources := self.sources ++ registeredBy w sd self c }, none) :=
      Prod.ext h1 h2
    simp only [addSources, h3]
    rw [ih (fun d hd => hlog d (List.mem_cons_of_mem _ hd))]
    have hr : registeredBy w sd { self with sources := self.sources ++ registeredBy w sd self c }
        = registeredBy w sd self := rfl
    rw [hr]
    simp [List.flatMap_cons]

theorem registeredBy_of_throw (w : Collaborators) (sd : JSValue) (self : ScrobbleSources)
    (c : JSValue) (h : returns (addSource w self c sd) = false) :
    registeredBy w sd self c = [] := by
  have h2 := tryAddSource_eq w sd self c
  unfold tryAddSource at h2
  cases ha : addSource w self c sd with
  | ok s => rw [ha] at h; simp [returns] at h
  | error e =>
    rw [ha] at h2
    simp only at h2
    have h3 : self = { self with sources := self.sources ++ registeredBy w sd self c } := by
      cases hcl : catchLog c with
      | ok m => rw [hcl] at h2; exact h2
      | error e' => rw [hcl] at h2; exact h2
    have h4 := congrArg ScrobbleSources.sources h3
    simpa using h4

theorem flatMap_registeredBy_filter (w : Collaborators) (sd : JSValue) (self : ScrobbleSources)
    (resolved : List JSValue) :
    (resolved.filter (fun c => returns (addSource w self c sd))).flatMap (registeredBy w sd self) =
      resolved.flatMap (registeredBy w sd self) := by
  induction resolved with
  | nil => rfl
  | cons c cs ih =>
    by_cases hc : returns (addSource w self c sd) = true
    · simp only [List.filter_cons, hc, if_true, List.flatMap_cons, ih]
    · have hc' : returns (addSource w self c sd) = false := by simpa using hc
      simp only [List.filter_cons, hc', List.flatMap_cons,
        registeredBy_of_throw w sd self c hc']
      simpa using ih

/-- C3: when construction succeeds and `initialize()`, if called, does not throw, `addSource`
returns; it appends the adapter when the adapter was already initialized or `initialize()` did
not return `false`, and leaves the instance unchanged when `initialize()` returned `false`;
adapters that differ only in `requiresAuth`, `authed` and the outcome of `testAuth()` are
appended or not alike. -/
theorem addSource_registers_unless_init_fails (w : Collaborators) (self : ScrobbleSources)
    (clientConfig defaults : JSValue) (a : Adapter)
    (hc : constructSource w self clientConfig defaults = .ok a)
    (hi : a.life.initialized = false → ∃ r, a.life.initOutcome = .ok r) :
    ∃ self', addSource w self clientConfig defaults = .ok self' ∧
      ((a.life.initialized = true ∨ ∀ r, a.life.initOutcome = .ok r → r ≠ .bool false) →
        self' = { self with sources := self.sources ++ [a] }) ∧
      ((a.life.initialized = false ∧ a.life.initOutcome = .ok (.bool false)) → self' = self) ∧
      (∀ (requiresAuth authed : Bool) (testAuth : Except JSError JSValue),
        (lifecycle self { a with life := { a.life with
            requiresAuth := requiresAuth, authed := authed, testAuth := testAuth } }).map
          (fun s => s.sources.length) = .ok self'.sources.length) := by
  unfold addSource
  rw [hc]
  simp only
  unfold lifecycle
  cases hinit : a.life.initialized with
  | true =>
    refine ⟨_, rfl, ?_, ?_, ?_⟩
    · intro _; rfl
    · intro h; cases h.1
    · intro ra au t
      simp [hinit, authAndRegister, Except.map]
  | false =>
    obtain ⟨r, hr⟩ := hi hinit
    rw [hr]
    simp only [beq_self_eq_true, if_true]
    by_cases hf : r.isFalse = true
    · rw [if_pos hf]
      refine ⟨_, rfl, ?_, ?_, ?_⟩
      · intro h
        rcases h with h | h
        · cases h
        · exact absurd ((isFalse_iff r).1 hf) (h r rfl)
      · intro _; rfl
      · intro ra au t
        simp [hinit, hr, hf, Except.map]
    · rw [if_neg hf]
      refine ⟨_, rfl, ?_, ?_, ?_⟩
      · intro _; rfl
      · intro h
        have h2 := h.2
        injection h2 with h3
        exact absurd ((isFalse_iff r).2 h3) hf
      · intro ra au t
        simp [hinit, hr, hf, authAndRegister, Except.map]

/-- C3, at the entry `{type: "plex", name: "den", ...}` in the quiet world. -/
theorem addSource_registers_unless_init_fails_witness :
    constructSource quietWorld freshSources (namedEntry "plex" "den") (.obj []) =
      .ok (AbstractSource readyLife "plex" (.str "den")
            [("user", .str "u"), ("password", .str "p")] (.arr [])) ∧
    ∃ self', addSource quietWorld freshSources (namedEntry "plex" "den") (.obj []) = .ok self' :=
  ⟨rfl,
   (addSource_registers_unless_init_fails quietWorld freshSources (namedEntry "plex" "den")
      (.obj []) _ rfl (fun _ => ⟨_, rfl⟩)).imp (fun _ h => h.1)⟩

/-- C8: a parsed per-type document is normalised as follows: an array gives its own elements; an
object whose `data` is `undefined` gives the one entry `{data: document, mode: "single", name:
"unnamed"}`; an object with a `data` gives the one entry that is the document itself, unchanged;
`null`, numbers, strings and booleans reject the file. -/
theorem normalizeSourceConfigs_shapes :
    (∀ xs, normalizeSourceConfigs (.arr xs) = some xs) ∧
    (∀ o, normalizeSourceConfigs (.obj o) =
      some [if (getOwn o "data").isUndefined then
              .obj [("data", .obj o), ("mode", .str "single"), ("name", .str "unnamed")]
            else .obj o]) ∧
    normalizeSourceConfigs .null = none ∧
    (∀ n, normalizeSourceConfigs (.num n) = none) ∧
    (∀ s, normalizeSourceConfigs (.str s) = none) ∧
    (∀ b, normalizeSourceConfigs (.bool b) = none) := by
  refine ⟨fun _ => rfl, ?_, rfl, fun _ => rfl, fun _ => rfl, fun _ => rfl⟩
  intro o
  unfold normalizeSourceConfigs
  by_cases h : (getOwn o "data").isUndefined = true
  · simp [h]
  · simp [h]

/-- C8, as stated, fails on the document `{data: {user: "u"}}`: the one entry it yields is the
document itself, whose `mode` is `undefined`, and so is the entry collected from the file. -/
theorem normalizeSourceConfigs_keeps_legacy_mode :
    normalizeSourceConfigs legacyDocument = some [legacyDocument] ∧
    (legacyDocument.field "data").isUndefined = false ∧
    legacyDocument.field "mode" = .undefined ∧
    (collectConfigs legacyFileWorld freshSources []).map
        (fun r => r.1.map (fun c => (c.field "type", c.field "mode"))) =
      .ok [(.str "spotify", .undefined)] := by
  exact ⟨rfl, rfl, rfl, rfl⟩

/-! ### `SubsonicSource` -/

theorem newSourceFor_subsonic (w : Collaborators) (self : ScrobbleSources) (name : JSValue)
    (data : JSObject) (clients : JSValue) (label : String) :
    newSourceFor w self (.str "subsonic") name data clients label =
      (SubsonicSource (w.subsonicLife name data clients) name data clients).result := by
  rfl

theorem SubsonicSource_throws (life : Lifecycle) (name : JSValue) (config : JSObject)
    (clients : JSValue)
    (h : getOwn config "user" = .undefined ∨ getOwn config "password" = .undefined) :
    returns (SubsonicSource life name config clients).result = false := by
  unfold SubsonicSource AbstractSource
  simp only
  by_cases hu : (getOwn config "user").isUndefined = true
  · simp [hu, returns]
  · by_cases hp : (getOwn config "password").isUndefined = true
    · simp [hu, hp, returns]
    · rcases h with h | h
      · exact absurd ((isUndefined_iff _).2 h) hu
      · exact absurd ((isUndefined_iff _).2 h) hp

theorem returns_error {α : Type} (e : JSError) : returns (Except.error e : Except JSError α) = false :=
  rfl

/-- C10: the constructor of `SubsonicSource` issues no remote request; it throws exactly when
`config.user` or `config.password` is undefined, with a message naming `user` when `user` is
undefined and `password` otherwise; and `addSource` throws, leaving the registry unchanged, on
every subsonic entry whose effective settings (the entry's `data` spread over the defaults) have
an undefined `user` or `password`. -/
theorem subsonic_requires_credentials (w : Collaborators) (self : ScrobbleSources)
    (clientConfig defaults : JSValue) (life : Lifecycle) (name : JSValue) (config : JSObject)
    (clients : JSValue)
    (htype : clientConfig.field "type" = .str "subsonic")
    (hcred : getOwn (mergedData defaults clientConfig) "user" = .undefined ∨
      getOwn (mergedData defaults clientConfig) "password" = .undefined) :
    (SubsonicSource life name config clients).requests = [] ∧
    (returns (SubsonicSource life name config clients).result = false ↔
      (getOwn config "user" = .undefined ∨ getOwn config "password" = .undefined)) ∧
    (getOwn config "user" = .undefined →
      (SubsonicSource life name config clients).result =
        .error (.error "Cannot setup Subsonic source, 'user' is not defined")) ∧
    (getOwn config "user" ≠ .undefined → getOwn config "password" = .undefined →
      (SubsonicSource life name config clients).result =
        .error (.error "Cannot setup Subsonic source, 'password' is not defined")) ∧
    returns (addSource w self clientConfig defaults) = false ∧
    (tryAddSource w defaults self clientConfig).1 = self := by
  have hadd : returns (addSource w self clientConfig defaults) = false := by
    unfold addSource constructSource
    cases hv : w.isValidConfigStructure clientConfig fullShape with
    | error e => rfl
    | ok r =>
      cases r with
      | some errs =>
        simp only
        cases configErrorMessage clientConfig errs <;> rfl
      | none =>
        simp only
        have hg : getField clientConfig "type" = .ok (.str "subsonic") := by
          cases clientConfig <;> simp_all [JSValue.field, getField]
        rw [hg]
        simp only
        cases toStringJS (clientConfig.field "name") with
        | error e => rfl
        | ok _ =>
          simp only
          have ht : toStringJS (.str "subsonic") = .ok "subsonic" := rfl
          rw [ht]
          simp only
          rw [newSourceFor_subsonic]
          have hs := SubsonicSource_throws
            (w.subsonicLife (clientConfig.field "name") (mergedData defaults clientConfig)
              ((clientConfig.field "clients").orDefault (.arr [])))
            (clientConfig.field "name") (mergedData defaults clientConfig)
            ((clientConfig.field "clients").orDefault (.arr [])) hcred
          cases hres : (SubsonicSource
            (w.subsonicLife (clientConfig.field "name") (mergedData defaults clientConfig)
              ((clientConfig.field "clients").orDefault (.arr [])))
            (clientConfig.field "name") (mergedData defaults clientConfig)
            ((clientConfig.field "clients").orDefault (.arr []))).result with
          | error e => rfl
          | ok a => rw [hres] at hs; simp [returns] at hs
  refine ⟨?_, ?_, ?_, ?_, hadd, ?_⟩
  · unfold SubsonicSource
    simp only
    split <;> [rfl; (split <;> rfl)]
  · constructor
    · intro h
      by_contra hn
      rw [not_or] at hn
      have hu : (getOwn config "user").isUndefined = false := by
        cases hb : (getOwn config "user").isUndefined
        · rfl
        · exact absurd ((isUndefined_iff _).1 hb) hn.1
      have hp : (getOwn config "password").isUndefined = false := by
        cases hb : (getOwn config "password").isUndefined
        · rfl
        · exact absurd ((isUndefined_iff _).1 hb) hn.2
      simp [SubsonicSource, AbstractSource, hu, hp, returns] at h
    · exact SubsonicSource_throws life name config clients
  · intro hu
    simp [SubsonicSource, AbstractSource, hu, JSValue.isUndefined]
  · intro hu hp
    have hu' : (getOwn config "user").isUndefined = false := by
      cases hb : (getOwn config "user").isUndefined
      · rfl
      · exact absurd ((isUndefined_iff _).1 hb) hu
    simp [SubsonicSource, AbstractSource, hu', hp, JSValue.isUndefined]
  · unfold tryAddSource
    cases ha : addSource w self clientConfig defaults with
    | error e =>
      simp only
      cases catchLog clientConfig <;> rfl
    | ok s => rw [ha] at hadd; simp [returns] at hadd

/-- C10, at a subsonic entry without `password` and empty defaults in the quiet world. -/
theorem subsonic_requires_credentials_witness :
    passwordlessEntry.field "type" = .str "subsonic" ∧
    getOwn (mergedData (.obj []) passwordlessEntry) "password" = .undefined ∧
    returns (addSource quietWorld freshSources passwordlessEntry (.obj [])) = false ∧
    (tryAddSource quietWorld (.obj []) freshSources passwordlessEntry).1 = freshSources :=
  have h := subsonic_requires_credentials quietWorld freshSources passwordlessEntry (.obj [])
    readyLife (.str "home") [] (.arr []) rfl (Or.inr rfl)
  ⟨rfl, rfl, h.2.2.2.2.1, h.2.2.2.2.2⟩

/-- C10, as stated, fails on the subsonic entry `{name: "home", data: {user, url}}` with
`sourceDefaults = {password: "secret"}`: the entry's own `data` has no `password`, yet the
adapter is constructed from the merged settings and appended to the registry. -/
theorem subsonic_password_from_defaults :
    passwordlessEntry.field "type" = .str "subsonic" ∧
    (passwordlessEntry.field "data").field "password" = .undefined ∧
    returns (constructSource quietWorld freshSources passwordlessEntry passwordDefaults) = true ∧
    (addSource quietWorld freshSources passwordlessEntry passwordDefaults).map
        (fun s => s.sources.map (fun a => (a.type, a.name, getOwn a.config "password"))) =
      .ok [("subsonic", .str "home", .str "secret")] := by
  exact ⟨rfl, rfl, rfl, rfl⟩

/-! ### Per-type files -/

theorem configPath_injective (self : ScrobbleSources) (a b : String)
    (h : configPath self a = configPath self b) : a = b := by
  unfold configPath at h
  have h2 := congrArg String.data h
  simp only [String.data_append, List.append_assoc, List.append_cancel_left_eq,
    List.append_cancel_right_eq] at h2
  exact String.ext h2

theorem perTypeConfigs_withFileMissing (w : Collaborators) (self : ScrobbleSources)
    (path : String) (e : JSError) (hbad : w.readJson path = .error e) (t : String) :
    perTypeConfigs (withFileMissing w path) self t = perTypeConfigs w self t := by
  have henv : envConfigs (withFileMissing w path) t = envConfigs w t := rfl
  unfold perTypeConfigs
  rw [henv]
  unfold withFileMissing
  simp only
  by_cases hp : configPath self t = path
  · rw [if_pos hp, hp, hbad]
    rfl
  · rw [if_neg hp]

/-- C6, as stated, fails with `SPOTIFY_CLIENT_ID` set and a `spotify.json` that cannot be parsed:
one config entry of type `spotify`, the environment entry, is collected. -/
theorem malformed_file_keeps_env_entry :
    malformedSpotifyWorld.readJson (configPath freshSources "spotify") =
      .error (.error "Unexpected token") ∧
    (collectConfigs malformedSpotifyWorld freshSources []).map
        (fun r => r.1.map (fun c => (c.field "type", c.field "source"))) =
      .ok [(.str "spotify", .str "ENV")] := by
  exact ⟨rfl, rfl⟩

/-! ### Object reads -/

theorem getOwn_append_single_ne (o : JSObject) (k k' : String) (v : JSValue) (h : k' ≠ k) :
    getOwn (o ++ [(k', v)]) k = getOwn o k := by
  simp [getOwn, List.foldl_append, h]

theorem getOwn_append_single (o : JSObject) (k : String) (v : JSValue) :
    getOwn (o ++ [(k, v)]) k = v := by
  simp [getOwn, List.foldl_append]

theorem foldl_read_filter (k k' : String) (h : k' ≠ k) (o : JSObject) (init : JSValue) :
    (o.filter (fun p => p.1 != k')).foldl (fun acc p => if p.1 = k then p.2 else acc) init =
      o.foldl (fun acc p => if p.1 = k then p.2 else acc) init := by
  induction o generalizing init with
  | nil => rfl
  | cons p rest ih =>
    by_cases hp : p.1 = k'
    · have hk : ¬ p.1 = k := fun hk => h (hp.symm.trans hk)
      have hkk : ¬ k' = k := h
      simp [List.filter_cons, hp, hkk, ih]
    · simp [List.filter_cons, hp, ih]

theorem getOwn_filter_ne (o : JSObject) (k k' : String) (h : k' ≠ k) :
    getOwn (o.filter (fun p => p.1 != k')) k = getOwn o k :=
  foldl_read_filter k k' h o .undefined

theorem field_withName_obj (o : JSObject) (n : JSValue) (k : String) (h : "name" ≠ k) :
    (withName (.obj o) n).field k = (JSValue.obj o).field k := by
  unfold withName JSValue.field ownEntries
  simp only
  rw [getOwn_append_single_ne _ _ _ _ h, getOwn_filter_ne _ _ _ h]

theorem configuredAsSource_withName (o : JSObject) (n : JSValue) :
    configuredAsSource (withName (.obj o) n) = configuredAsSource (.obj o) := by
  unfold configuredAsSource
  rw [field_withName_obj o n "configureAs" (by decide), field_withName_obj o n "type" (by decide)]

/-! ### Where the resolved entries come from -/

theorem lookup_mem (acc : Groups) (key : String) (g : List JSValue)
    (h : acc.lookup key = some g) : ∃ q ∈ acc, q.2 = g := by
  induction acc with
  | nil => simp [List.lookup] at h
  | cons p rest ih =>
    obtain ⟨k, v⟩ := p
    by_cases hk : (key == k) = true
    · simp only [List.lookup, hk] at h
      exact ⟨(k, v), List.mem_cons_self _ _, by simpa using h⟩
    · have hk' : (key == k) = false := by simpa using hk
      simp only [List.lookup, hk'] at h
      obtain ⟨q, hq, hg⟩ := ih h
      exact ⟨q, List.mem_cons_of_mem _ hq, hg⟩

theorem addToGroup_mem (acc acc' : Groups) (key : String) (curr : JSValue)
    (h : addToGroup acc key curr = .ok acc') (p : String × List JSValue) (hp : p ∈ acc')
    (c : JSValue) (hc : c ∈ p.2) : c = curr ∨ ∃ q ∈ acc, c ∈ q.2 := by
  unfold addToGroup at h
  cases hl : groupLookup acc key with
  | error e => rw [hl] at h; cases h
  | ok t =>
    rw [hl] at h
    simp only at h
    injection h with h
    subst h
    have ht : ∀ x ∈ t, ∃ q ∈ acc, x ∈ q.2 := by
      intro x hx
      unfold groupLookup at hl
      cases hlk : acc.lookup key with
      | some g =>
        rw [hlk] at hl
        simp only at hl
        injection hl with hl
        subst hl
        obtain ⟨q, hq, hg⟩ := lookup_mem acc key g hlk
        exact ⟨q, hq, hg ▸ hx⟩
      | none =>
        rw [hlk] at hl
        simp only at hl
        split at hl
        · cases hl
        · injection hl with hl
          subst hl
          cases hx
    unfold groupSet at hp
    split at hp
    · rw [List.mem_map] at hp
      obtain ⟨q, hq, hqp⟩ := hp
      split at hqp
      · subst hqp
        rcases List.mem_append.1 hc with hx | hx
        · exact Or.inr (ht c hx)
        · exact Or.inl (by simpa using hx)
      · subst hqp
        exact Or.inr ⟨q, hq, hc⟩
    · rcases List.mem_append.1 hp with hq | hq
      · exact Or.inr ⟨p, hq, hc⟩
      · have hpe : p = (key, t ++ [curr]) := by simpa using hq
        subst hpe
        rcases List.mem_append.1 hc with hx | hx
        · exact Or.inr (ht c hx)
        · exact Or.inl (by simpa using hx)

theorem groupBy_fold_mem (keyOf : JSValue → Except JSError String) (xs : List JSValue)
    (acc res : Groups)
    (h : xs.foldlM (groupStep keyOf) acc = .ok res)
    (p : String × List JSValue) (hp : p ∈ res) (c : JSValue) (hc : c ∈ p.2) :
    c ∈ xs ∨ ∃ q ∈ acc, c ∈ q.2 := by
  induction xs generalizing acc with
  | nil =>
    simp only [List.foldlM_nil, pure, Except.pure] at h
    injection h with h
    subst h
    exact Or.inr ⟨p, hp, hc⟩
  | cons x rest ih =>
    simp only [List.foldlM_cons, bind, Except.bind] at h
    cases hs : groupStep keyOf acc x with
    | error e => rw [hs] at h; cases h
    | ok acc' =>
      rw [hs] at h
      simp only at h
      unfold groupStep at hs
      cases hk : keyOf x with
      | error e => rw [hk] at hs; cases hs
      | ok key =>
        rw [hk] at hs
        simp only at hs
        rcases ih acc' h with hin | ⟨q, hq, hcq⟩
        · exact Or.inl (List.mem_cons_of_mem _ hin)
        · rcases addToGroup_mem acc acc' key x hs q hq c hcq with heq | hex
          · exact Or.inl (heq ▸ List.mem_cons_self _ _)
          · exact Or.inr hex

theorem groupBy_mem (keyOf : JSValue → Except JSError String) (xs : List JSValue) (res : Groups)
    (h : groupBy keyOf xs = .ok res) (p : String × List JSValue) (hp : p ∈ res) (c : JSValue)
    (hc : c ∈ p.2) : c ∈ xs := by
  rcases groupBy_fold_mem keyOf xs [] res h p hp c hc with hin | ⟨q, hq, _⟩
  · exact hin
  · cases hq

theorem objectEntries_mem {β : Type} (o : List (String × β)) (p : String × β)
    (hp : p ∈ objectEntries o) : p ∈ o := by
  unfold objectEntries at hp
  rcases List.mem_append.1 hp with h | h
  · have h2 := (List.perm_insertionSort _ _).mem_iff.1 h
    exact (List.mem_filter.1 h2).1
  · exact (List.mem_filter.1 h).1

theorem groupBy_fold_keys (keyOf : JSValue → Except JSError String) (xs : List JSValue)
    (acc res : Groups) (h : xs.foldlM (groupStep keyOf) acc = .ok res) (c : JSValue)
    (hc : c ∈ xs) : ∃ k, keyOf c = .ok k := by
  induction xs generalizing acc with
  | nil => cases hc
  | cons x rest ih =>
    simp only [List.foldlM_cons, bind, Except.bind] at h
    cases hs : groupStep keyOf acc x with
    | error e => rw [hs] at h; cases h
    | ok acc' =>
      rw [hs] at h
      simp only at h
      rcases List.mem_cons.1 hc with h1 | h1
      · subst h1
        unfold groupStep at hs
        cases hk : keyOf c with
        | error e => rw [hk] at hs; cases hs
        | ok key => exact ⟨key, rfl⟩
      · exact ih acc' h h1

theorem groupBy_keys (keyOf : JSValue → Except JSError String) (xs : List JSValue) (res : Groups)
    (h : groupBy keyOf xs = .ok res) (c : JSValue) (hc : c ∈ xs) : ∃ k, keyOf c = .ok k :=
  groupBy_fold_keys keyOf xs [] res h c hc

theorem renameConfig_eq (hasDups : Bool) (i : Nat) (c e : JSValue)
    (h : renameConfig hasDups i c = .ok e) :
    ∃ n, e = withName c n ∧ ((∃ k, nameKey c = .ok k) → ∃ s, toStringJS n = .ok s) := by
  unfold renameConfig at h
  cases hg : getField c "name" with
  | error err => rw [hg] at h; cases h
  | ok n =>
    rw [hg] at h
    simp only at h
    split at h
    · split at h
      · cases h
      · injection h with h
        exact ⟨_, h.symm, fun _ => ⟨_, rfl⟩⟩
    · injection h with h
      refine ⟨_, h.symm, ?_⟩
      intro hk
      unfold nameKey at hk
      rw [hg] at hk
      exact hk

theorem renameAll_mem (hasDups : Bool) (xs : List JSValue) (i : Nat) (ys : List JSValue)
    (h : renameAll hasDups i xs = .ok ys) (e : JSValue) (he : e ∈ ys) :
    ∃ c ∈ xs, ∃ n, e = withName c n ∧ ((∃ k, nameKey c = .ok k) → ∃ s, toStringJS n = .ok s) := by
  induction xs generalizing i ys with
  | nil =>
    simp only [renameAll] at h
    injection h with h
    subst h
    cases he
  | cons x rest ih =>
    simp only [renameAll] at h
    cases hr : renameConfig hasDups i x with
    | error err => rw [hr] at h; cases h
    | ok x' =>
      rw [hr] at h
      simp only at h
      cases hrest : renameAll hasDups (i + 1) rest with
      | error err => rw [hrest] at h; cases h
      | ok cs =>
        rw [hrest] at h
        simp only at h
        injection h with h
        subst h
        rcases List.mem_cons.1 he with h1 | h1
        · obtain ⟨n, hn, hs⟩ := renameConfig_eq hasDups i x x' hr
          exact ⟨x, List.mem_cons_self _ _, n, h1 ▸ hn, hs⟩
        · obtain ⟨c, hc, n, hn, hs⟩ := ih (i + 1) cs hrest h1
          exact ⟨c, List.mem_cons_of_mem _ hc, n, hn, hs⟩

theorem resolveNamed_mem (gs : List (String × List JSValue)) (e : JSValue)
    (he : e ∈ (resolveNamed gs).1) :
    ∃ p ∈ gs, ∃ c ∈ p.2, ∃ n, e = withName c n ∧
      ((∃ k, nameKey c = .ok k) → ∃ s, toStringJS n = .ok s) := by
  induction gs with
  | nil => simp [resolveNamed] at he
  | cons g rest ih =>
    obtain ⟨k, namedConfigs⟩ := g
    simp only [resolveNamed] at he
    split at he
    · cases he
    · split at he
      · cases he
      · rename_i temp htemp
        rcases List.mem_append.1 he with h1 | h1
        · obtain ⟨c, hc, n, hn, hs⟩ := renameAll_mem _ _ _ _ htemp e h1
          exact ⟨(k, namedConfigs), List.mem_cons_self _ _, c, hc, n, hn, hs⟩
        · obtain ⟨p, hp, c, hc, n, hn, hs⟩ := ih h1
          exact ⟨p, List.mem_cons_of_mem _ hp, c, hc, n, hn, hs⟩

theorem resolveTyped_mem (gs : List (String × List JSValue)) (e : JSValue)
    (he : e ∈ (resolveTyped gs).1) :
    ∃ p ∈ gs, ∃ c ∈ p.2, ∃ n, e = withName c n ∧ ∃ s, toStringJS n = .ok s := by
  induction gs with
  | nil => simp [resolveTyped] at he
  | cons g rest ih =>
    obtain ⟨k, typedConfigs⟩ := g
    simp only [resolveTyped] at he
    cases hn : nameGroupedConfigs typedConfigs with
    | error err => rw [hn] at he; cases he
    | ok named =>
      rw [hn] at he
      simp only at he
      have hnamed : ∀ e ∈ (resolveNamed (objectEntries named)).1,
          ∃ c ∈ typedConfigs, ∃ n, e = withName c n ∧ ∃ s, toStringJS n = .ok s := by
        intro e he
        obtain ⟨p, hp, c, hc, n, hn', hs⟩ := resolveNamed_mem _ e he
        have hct : c ∈ typedConfigs :=
          groupBy_mem nameKey typedConfigs named hn p (objectEntries_mem _ _ hp) c hc
        exact ⟨c, hct, n, hn', hs (groupBy_keys nameKey typedConfigs named hn c hct)⟩
      split at he
      · rename_i calls err heq
        have hcalls : calls = (resolveNamed (objectEntries named)).1 := by rw [heq]
        obtain ⟨c, hc, n, hn', hs⟩ := hnamed e (hcalls ▸ he)
        exact ⟨(k, typedConfigs), List.mem_cons_self _ _, c, hc, n, hn', hs⟩
      · rename_i calls heq
        have hcalls : calls = (resolveNamed (objectEntries named)).1 := by rw [heq]
        rcases List.mem_append.1 he with h1 | h1
        · obtain ⟨c, hc, n, hn', hs⟩ := hnamed e (hcalls ▸ h1)
          exact ⟨(k, typedConfigs), List.mem_cons_self _ _, c, hc, n, hn', hs⟩
        · obtain ⟨p, hp, c, hc, n, hn', hs⟩ := ih h1
          exact ⟨p, List.mem_cons_of_mem _ hp, c, hc, n, hn', hs⟩

theorem resolveNames_mem (valid : List JSValue) (e : JSValue)
    (he : e ∈ (resolveNames valid).1) :
    ∃ c ∈ valid, ∃ n, e = withName c n ∧ (∃ s, toStringJS n = .ok s) ∧
      ∃ k, typeKey c = .ok k := by
  unfold resolveNames at he
  cases ht : typeGroupedConfigs valid with
  | error err => rw [ht] at he; cases he
  | ok typed =>
    rw [ht] at he
    simp only at he
    obtain ⟨p, hp, c, hc, n, hn, hs⟩ := resolveTyped_mem _ e he
    have hcv : c ∈ valid := groupBy_mem typeKey valid typed ht p (objectEntries_mem _ _ hp) c hc
    exact ⟨c, hcv, n, hn, hs, groupBy_keys typeKey valid typed ht c hcv⟩

/-! ### The `catch` block never throws on a resolved entry -/

theorem digitChar_isDigit (n : Nat) (h : n < 10) : (Nat.digitChar n).isDigit = true := by
  interval_cases n <;> rfl

theorem toDigitsCore_isDigit (fuel : Nat) (n : Nat) (ds : List Char)
    (hds : ∀ c ∈ ds, c.isDigit = true) (c : Char) (hc : c ∈ Nat.toDigitsCore 10 fuel n ds) :
    c.isDigit = true := by
  induction fuel generalizing n ds with
  | zero =>
    simp only [Nat.toDigitsCore] at hc
    exact hds c hc
  | succ f ih =>
    simp only [Nat.toDigitsCore] at hc
    have hcons : ∀ x ∈ Nat.digitChar (n % 10) :: ds, x.isDigit = true := by
      intro x hx
      rcases List.mem_cons.1 hx with h1 | h1
      · rw [h1]
        exact digitChar_isDigit _ (Nat.mod_lt _ (by decide))
      · exact hds x h1
    split at hc
    · exact hcons c hc
    · exact ih _ _ hcons hc

theorem natToString_isDigit (n : Nat) (c : Char) (hc : c ∈ (toString n).data) :
    c.isDigit = true :=
  toDigitsCore_isDigit _ _ [] (fun _ h => by cases h) c hc

theorem foldl_read_absent (k : String) (o : JSObject) (init : JSValue)
    (h : ∀ p ∈ o, p.1 ≠ k) :
    o.foldl (fun acc p => if p.1 = k then p.2 else acc) init = init := by
  induction o generalizing init with
  | nil => rfl
  | cons p rest ih =>
    have hp : ¬ p.1 = k := h p (List.mem_cons_self _ _)
    simp only [List.foldl_cons, hp, if_false]
    exact ih init (fun q hq => h q (List.mem_cons_of_mem _ hq))

theorem getOwn_indexed (xs : List JSValue) (k : String) (c : Char) (hc : c ∈ k.data)
    (hd : c.isDigit = false) : getOwn (indexed xs) k = .undefined := by
  unfold getOwn
  apply foldl_read_absent
  intro p hp hk
  unfold indexed at hp
  rw [List.mem_map] at hp
  obtain ⟨q, _, hq⟩ := hp
  have h1 : c ∈ (toString q.1).data := by
    rw [← hq] at hk
    simp only at hk
    rw [hk]
    exact hc
  rw [natToString_isDigit q.1 c h1] at hd
  cases hd

theorem field_withName (c n : JSValue) (k : String) (h : "name" ≠ k) (ch : Char)
    (hc : ch ∈ k.data) (hd : ch.isDigit = false) : (withName c n).field k = c.field k := by
  cases c with
  | obj o => exact field_withName_obj o n k h
  | arr xs =>
    unfold withName JSValue.field ownEntries
    simp only
    rw [getOwn_append_single_ne _ _ _ _ h, getOwn_filter_ne _ _ _ h, getOwn_indexed xs k ch hc hd]
  | str s =>
    unfold withName JSValue.field ownEntries
    simp only
    rw [getOwn_append_single_ne _ _ _ _ h, getOwn_filter_ne _ _ _ h, getOwn_indexed _ k ch hc hd]
  | _ =>
    unfold withName JSValue.field ownEntries
    simp only
    rw [getOwn_append_single_ne _ _ _ _ h]
    rfl

theorem catchLog_withName (c n : JSValue) (s k : String) (hn : toStringJS n = .ok s)
    (hk : typeKey c = .ok k) : ∃ msg, catchLog (withName c n) = .ok msg := by
  have hname : getField (withName c n) "name" = .ok n := by
    unfold withName getField JSValue.field
    simp only
    rw [getOwn_append_single]
  have htype : (withName c n).field "type" = c.field "type" :=
    field_withName c n "type" (by decide) 't' (by decide) (by decide)
  have hct : toStringJS (c.field "type") = .ok k := by
    unfold typeKey at hk
    cases c <;> simp_all [getField]
  unfold catchLog
  rw [hname]
  simp only
  rw [hn]
  simp only
  rw [htype, hct]
  exact ⟨_, rfl⟩

theorem catchLog_resolved (valid : List JSValue) (e : JSValue)
    (he : e ∈ (resolveNames valid).1) : ∃ msg, catchLog e = .ok msg := by
  obtain ⟨c, _, n, hn, ⟨s, hs⟩, ⟨k, hk⟩⟩ := resolveNames_mem valid e he
  rw [hn]
  exact catchLog_withName c n s k hs hk

theorem addSource_throws_of_invalid (w : Collaborators) (sd : JSValue) (self : ScrobbleSources)
    (c : JSValue) (errs : List String)
    (h : w.isValidConfigStructure c fullShape = .ok (some errs)) :
    returns (addSource w self c sd) = false := by
  unfold addSource constructSource
  rw [h]
  simp only
  cases configErrorMessage c errs <;> rfl

theorem newSourceFor_unrecognized (w : Collaborators) (self : ScrobbleSources)
    (type name : JSValue) (data : JSObject) (clients : JSValue) (label : String)
    (h : ∀ t ∈ sourceTypes, type ≠ .str t) :
    returns (newSourceFor w self type name data clients label) = false := by
  unfold newSourceFor
  split
  · exact absurd rfl (h "spotify" (by decide))
  · exact absurd rfl (h "plex" (by decide))
  · exact absurd rfl (h "tautulli" (by decide))
  · exact absurd rfl (h "subsonic" (by decide))
  · exact absurd rfl (h "jellyfin" (by decide))
  · exact absurd rfl (h "lastfm" (by decide))
  · exact absurd rfl (h "deezer" (by decide))
  · exact absurd rfl (h "apple" (by decide))
  · rfl

theorem addSource_throws_of_unrecognized (w : Collaborators) (sd : JSValue)
    (self : ScrobbleSources) (c : JSValue) (h : ∀ t ∈ sourceTypes, c.field "type" ≠ .str t) :
    returns (addSource w self c sd) = false := by
  unfold addSource constructSource
  cases w.isValidConfigStructure c fullShape with
  | error e => rfl
  | ok r =>
    cases r with
    | some errs =>
      simp only
      cases configErrorMessage c errs <;> rfl
    | none =>
      simp only
      cases hg : getField c "type" with
      | error e => rfl
      | ok type =>
        have ht : type = c.field "type" := by
          cases c <;> simp_all [getField]
        simp only
        cases toStringJS (c.field "name") with
        | error e => rfl
        | ok _ =>
          simp only
          cases toStringJS type with
          | error e => rfl
          | ok label =>
            simp only
            have hr := newSourceFor_unrecognized w self type (c.field "name") (mergedData sd c)
              ((c.field "clients").orDefault (.arr [])) label (ht ▸ h)
            cases hn : newSourceFor w self type (c.field "name") (mergedData sd c)
              ((c.field "clients").orDefault (.arr [])) label with
            | error e => rfl
            | ok a => rw [hn] at hr; simp [returns] at hr

theorem registeredBy_of_return (w : Collaborators) (sd : JSValue) (self self' : ScrobbleSources)
    (c : JSValue) (h : addSource w self c sd = .ok self') :
    self' = { self with sources := self.sources ++ registeredBy w sd self c } := by
  have h2 := tryAddSource_eq w sd self c
  unfold tryAddSource at h2
  rw [h] at h2
  exact h2

theorem registeredBy_of_lifecycle (w : Collaborators) (sd : JSValue) (self : ScrobbleSources)
    (c : JSValue) (a : Adapter) (hc : constructSource w self c sd = .ok a)
    (hlife : a.life.initialized = true ∨ ∃ r, a.life.initOutcome = .ok r ∧ r ≠ .bool false) :
    addSource w self c sd = .ok { self with sources := self.sources ++ [a] } ∧
    registeredBy w sd self c = [a] := by
  have hadd : ∀ s : ScrobbleSources, constructSource w s c sd = .ok a →
      addSource w s c sd = .ok { s with sources := s.sources ++ [a] } := by
    intro s hs
    unfold addSource
    rw [hs]
    simp only
    unfold lifecycle
    cases hinit : a.life.initialized with
    | true => rfl
    | false =>
      rcases hlife with h | ⟨r, hr, hne⟩
      · rw [hinit] at h; cases h
      · rw [hr]
        have hf : r.isFalse = false := by
          cases hb : r.isFalse
          · rfl
          · exact absurd ((isFalse_iff r).1 hb) hne
        simp [hf, authAndRegister]
  refine ⟨hadd self hc, ?_⟩
  have hc' : constructSource w { self with sources := [] } c sd = .ok a := hc
  unfold registeredBy tryAddSource
  rw [hadd { self with sources := [] } hc']
  rfl

/-- C4: over the entries that name resolution hands to `addSource`, no error escapes the
`try`/`catch` loop; `addSource` throws on an entry that fails the validation of line 286, on an
entry whose type is not one of the known tags, and when construction throws; an entry for which
`addSource` throws adds nothing to the registry; an entry for which `addSource` returns leaves
the registry extended by what the entry registers alone, and that is the constructed adapter
itself whenever the adapter is already initialized or `initialize()` returns something other
than `false`; the final registry is the initial one followed by what each entry registers
alone, in call order, and it equals the one obtained from the list without the entries for
which `addSource` throws. -/
theorem addSources_isolates_failures (w : Collaborators) (sd : JSValue) (self : ScrobbleSources)
    (valid : List JSValue) :
    (addSources w sd self (resolveNames valid).1).2 = none ∧
    (∀ c errs, w.isValidConfigStructure c fullShape = .ok (some errs) →
      returns (addSource w self c sd) = false) ∧
    (∀ c, (∀ t ∈ sourceTypes, c.field "type" ≠ .str t) →
      returns (addSource w self c sd) = false) ∧
    (∀ c e, constructSource w self c sd = .error e → returns (addSource w self c sd) = false) ∧
    (∀ c, returns (addSource w self c sd) = false → registeredBy w sd self c = []) ∧
    (∀ c self', addSource w self c sd = .ok self' →
      self' = { self with sources := self.sources ++ registeredBy w sd self c }) ∧
    (∀ c a, constructSource w self c sd = .ok a →
      (a.life.initialized = true ∨ ∃ r, a.life.initOutcome = .ok r ∧ r ≠ .bool false) →
      addSource w self c sd = .ok { self with sources := self.sources ++ [a] } ∧
      registeredBy w sd self c = [a]) ∧
    (addSources w sd self (resolveNames valid).1).1 =
      { self with sources := self.sources ++
          (resolveNames valid).1.flatMap (registeredBy w sd self) } ∧
    addSources w sd self (resolveNames valid).1 =
      addSources w sd self
        ((resolveNames valid).1.filter (fun c => returns (addSource w self c sd))) := by
  have hlog : ∀ c ∈ (resolveNames valid).1, ∃ msg, catchLog c = .ok msg :=
    catchLog_resolved valid
  have hlog' : ∀ c ∈ (resolveNames valid).1.filter
      (fun c => returns (addSource w self c sd)), ∃ msg, catchLog c = .ok msg :=
    fun c hc => hlog c (List.mem_filter.1 hc).1
  refine ⟨?_, addSource_throws_of_invalid w sd self, addSource_throws_of_unrecognized w sd self,
    ?_, registeredBy_of_throw w sd self, ?_, ?_, ?_, ?_⟩
  · rw [addSources_eq w sd _ hlog]
  · intro c e h
    unfold addSource
    rw [h]
    rfl
  · exact fun c self' h => registeredBy_of_return w sd self self' c h
  · exact fun c a hc hlife => registeredBy_of_lifecycle w sd self c a hc hlife
  · rw [addSources_eq w sd _ hlog]
  · rw [addSources_eq w sd _ hlog, addSources_eq w sd _ hlog', flatMap_registeredBy_filter]

theorem buildSourcesFromConfig_registry (w : Collaborators) (self : ScrobbleSources)
    (additionalConfigs configs valid : List JSValue) (sd : JSValue)
    (hc : collectConfigs w self additionalConfigs = .ok (configs, sd))
    (hv : validConfigs w configs = .ok valid) :
    buildSourcesFromConfig w self additionalConfigs =
      ({ self with sources := self.sources ++
          (addSourceCalls w self additionalConfigs).1.flatMap (registeredBy w sd self) },
        (addSourceCalls w self additionalConfigs).2) := by
  unfold buildSourcesFromConfig addSourceCalls
  rw [hc]
  simp only
  rw [hv]
  simp only
  rw [addSources_eq w sd _ (catchLog_resolved valid)]

/-! ### The role filter -/

theorem validConfigs_fold_mem (w : Collaborators)
    (hval : ∀ c, w.isValidConfigStructure c minimalShape = .ok none → ∃ o, c = .obj o)
    (configs acc res : List JSValue) (h : configs.foldlM (validStep w) acc = .ok res)
    (c : JSValue) (hc : c ∈ res) : c ∈ acc ∨ c ∈ configs := by
  induction configs generalizing acc with
  | nil =>
    simp only [List.foldlM_nil, pure, Except.pure] at h
    injection h with h
    subst h
    exact Or.inl hc
  | cons x rest ih =>
    simp only [List.foldlM_cons, bind, Except.bind] at h
    cases hs : validStep w acc x with
    | error e => rw [hs] at h; cases h
    | ok acc' =>
      rw [hs] at h
      simp only at h
      rcases ih acc' h with hin | hin
      · unfold validStep at hs
        cases hv : w.isValidConfigStructure x minimalShape with
        | error e => rw [hv] at hs; cases hs
        | ok r =>
          rw [hv] at hs
          cases r with
          | some errs =>
            simp only at hs
            split at hs
            · cases hs
            · injection hs with hs
              subst hs
              exact Or.inl hin
          | none =>
            simp only at hs
            injection hs with hs
            subst hs
            obtain ⟨o, ho⟩ := hval x hv
            subst ho
            simp only [concatValue] at hin
            rcases List.mem_append.1 hin with h1 | h1
            · exact Or.inl h1
            · exact Or.inr (by simpa using Or.inl h1)
      · exact Or.inr (List.mem_cons_of_mem _ hin)

theorem validConfigs_fold_obj (w : Collaborators)
    (hval : ∀ c, w.isValidConfigStructure c minimalShape = .ok none → ∃ o, c = .obj o)
    (configs acc res : List JSValue) (h : configs.foldlM (validStep w) acc = .ok res)
    (hacc : ∀ c ∈ acc, ∃ o, c = .obj o) (c : JSValue) (hc : c ∈ res) : ∃ o, c = .obj o := by
  induction configs generalizing acc with
  | nil =>
    simp only [List.foldlM_nil, pure, Except.pure] at h
    injection h with h
    subst h
    exact hacc c hc
  | cons x rest ih =>
    simp only [List.foldlM_cons, bind, Except.bind] at h
    cases hs : validStep w acc x with
    | error e => rw [hs] at h; cases h
    | ok acc' =>
      rw [hs] at h
      simp only at h
      refine ih acc' h ?_
      intro d hd
      unfold validStep at hs
      cases hv : w.isValidConfigStructure x minimalShape with
      | error e => rw [hv] at hs; cases hs
      | ok r =>
        rw [hv] at hs
        cases r with
        | some errs =>
          simp only at hs
          split at hs
          · cases hs
          · injection hs with hs
            subst hs
            exact hacc d hd
        | none =>
          simp only at hs
          injection hs with hs
          subst hs
          obtain ⟨o, ho⟩ := hval x hv
          subst ho
          simp only [concatValue] at hd
          rcases List.mem_append.1 hd with h1 | h1
          · exact hacc d h1
          · exact ⟨o, by simpa using h1⟩

theorem mainEntry_configuredAsSource (c e : JSValue) (h : mainEntry c = .ok e) :
    configuredAsSource e = true := by
  unfold mainEntry at h
  cases hg : getField c "name" with
  | error err => rw [hg] at h; cases h
  | ok n =>
    rw [hg] at h
    simp only at h
    injection h with h
    subst h
    simp [configuredAsSource, JSValue.field, getOwn, List.foldl_append, JSValue.orDefault,
      JSValue.isStr]

theorem mainEntries_configuredAsSource (xs ys : List JSValue) (h : mainEntries xs = .ok ys)
    (e : JSValue) (he : e ∈ ys) : configuredAsSource e = true := by
  induction xs generalizing ys with
  | nil =>
    simp only [mainEntries] at h
    injection h with h
    subst h
    cases he
  | cons x rest ih =>
    simp only [mainEntries] at h
    cases hm : mainEntry x with
    | error err => rw [hm] at h; cases h
    | ok x' =>
      rw [hm] at h
      simp only at h
      cases hrest : mainEntries rest with
      | error err => rw [hrest] at h; cases h
      | ok es =>
        rw [hrest] at h
        simp only at h
        injection h with h
        subst h
        rcases List.mem_cons.1 he with h1 | h1
        · exact h1 ▸ mainEntry_configuredAsSource x x' hm
        · exact ih es hrest h1

theorem envEntry_configuredAsSource (type : String) (data : JSObject) (hl : type ≠ "lastfm")
    (e : JSValue) (he : e ∈ envEntry type data) : configuredAsSource e = true := by
  unfold envEntry at he
  split at he
  · rw [List.mem_singleton] at he
    subst he
    simp [configuredAsSource, JSValue.field, getOwn, JSValue.orDefault, JSValue.isStr, hl]
  · cases he

theorem envConfigs_configuredAsSource (w : Collaborators) (t : String) (e : JSValue)
    (he : e ∈ envConfigs w t) : configuredAsSource e = true := by
  unfold envConfigs at he
  split at he
  · exact envEntry_configuredAsSource _ _ (by decide) e he
  · exact envEntry_configuredAsSource _ _ (by decide) e he
  · exact envEntry_configuredAsSource _ _ (by decide) e he
  · exact envEntry_configuredAsSource _ _ (by decide) e he
  · exact envEntry_configuredAsSource _ _ (by decide) e he
  · cases he
  · cases he
  · exact envEntry_configuredAsSource _ _ (by decide) e he
  · cases he

theorem fileConfigs_configuredAsSource (t : String) (sourceConfigs : List JSValue) (e : JSValue)
    (he : e ∈ fileConfigs t sourceConfigs) : configuredAsSource e = true := by
  unfold fileConfigs at he
  rw [List.mem_filterMap] at he
  obtain ⟨m, _, hm⟩ := he
  split at hm
  · cases hm
  · split at hm
    · cases hm
    · split at hm
      · rename_i hrole
        injection hm with hm
        subst hm
        cases m with
        | obj o =>
          simp only [tagEntry, configuredAsSource, JSValue.field] at hrole ⊢
          have h1 : getOwn (o ++ [("source", JSValue.str (t ++ ".json")), ("type", JSValue.str t)])
              "configureAs" = getOwn o "configureAs" := by
            simp [getOwn, List.foldl_append]
          have h2 : getOwn (o ++ [("source", JSValue.str (t ++ ".json")), ("type", JSValue.str t)])
              "type" = .str t := by
            simp [getOwn, List.foldl_append]
          simp only [h1, h2]
          simpa [defaultConfigureAs, JSValue.isStr] using hrole
        | _ => simp [tagEntry, configuredAsSource, JSValue.field, JSValue.orDefault, JSValue.isStr]
      · cases hm

theorem perTypeConfigs_configuredAsSource (w : Collaborators) (self : ScrobbleSources)
    (t : String) (e : JSValue) (he : e ∈ perTypeConfigs w self t) :
    configuredAsSource e = true := by
  unfold perTypeConfigs at he
  rcases List.mem_append.1 he with h1 | h1
  · exact envConfigs_configuredAsSource w t e h1
  · split at h1
    · cases h1
    · split at h1
      · cases h1
      · split at h1
        · cases h1
        · exact fileConfigs_configuredAsSource t _ e h1

theorem collectConfigs_configuredAsSource (w : Collaborators) (self : ScrobbleSources)
    (additionalConfigs configs : List JSValue) (sd : JSValue)
    (h : collectConfigs w self additionalConfigs = .ok (configs, sd)) (c : JSValue)
    (hc : c ∈ configs) : c ∈ additionalConfigs ∨ configuredAsSource c = true := by
  unfold collectConfigs at h
  cases hm : mainConfigs w self with
  | error err => rw [hm] at h; cases h
  | ok r =>
    obtain ⟨entries, sd'⟩ := r
    rw [hm] at h
    simp only at h
    injection h with h
    injection h with h1 h2
    subst h1
    rcases List.mem_append.1 hc with h3 | h3
    · rcases List.mem_append.1 h3 with h4 | h4
      · exact Or.inl h4
      · right
        unfold mainConfigs at hm
        split at hm
        · cases hm
        · split at hm
          · injection hm with hm
            injection hm with hm1 hm2
            subst hm1
            cases h4
          · split at hm
            · cases hm
            · split at hm
              · split at hm
                · cases hm
                · rename_i es hes
                  injection hm with hm
                  injection hm with hm1 hm2
                  subst hm1
                  exact mainEntries_configuredAsSource _ _ hes c h4
              · cases hm
    · right
      rw [List.mem_flatMap] at h3
      obtain ⟨t, _, ht⟩ := h3
      exact perTypeConfigs_configuredAsSource w self t c ht

/-- C7: when the validator accepts only plain objects, every entry that
`buildSourcesFromConfig` hands to `addSource` is either an externally supplied entry (renamed or
not), which no step checks for its role, or an entry whose `configureAs`, after the default of
its type, is `'source'`: no entry from `config.json`, a per-type file or the environment reaches
`addSource` with another role. -/
theorem addSourceCalls_role (w : Collaborators) (self : ScrobbleSources)
    (additionalConfigs : List JSValue)
    (hval : ∀ c, w.isValidConfigStructure c minimalShape = .ok none → ∃ o, c = .obj o)
    (e : JSValue) (he : e ∈ (addSourceCalls w self additionalConfigs).1) :
    (∃ a ∈ additionalConfigs, ∃ n, e = withName a n) ∨ configuredAsSource e = true := by
  unfold addSourceCalls at he
  cases hcol : collectConfigs w self additionalConfigs with
  | error err => rw [hcol] at he; cases he
  | ok r =>
    obtain ⟨configs, sd⟩ := r
    rw [hcol] at he
    simp only at he
    cases hv : validConfigs w configs with
    | error err => rw [hv] at he; cases he
    | ok valid =>
      rw [hv] at he
      simp only at he
      obtain ⟨c, hc, n, hn, _, _⟩ := resolveNames_mem valid e he
      have hcfg : c ∈ configs := by
        rcases validConfigs_fold_mem w hval configs [] valid hv c hc with h1 | h1
        · cases h1
        · exact h1
      obtain ⟨o, ho⟩ := validConfigs_fold_obj w hval configs [] valid hv
        (fun _ h => by cases h) c hc
      rcases collectConfigs_configuredAsSource w self additionalConfigs configs sd hcol c hcfg
        with h1 | h1
      · exact Or.inl ⟨c, h1, n, hn⟩
      · right
        subst ho
        rw [hn, configuredAsSource_withName]
        exact h1

theorem isValidConfigStructure_minimal_obj (c : JSValue)
    (h : isValidConfigStructure c minimalShape = .ok none) : ∃ o, c = .obj o := by
  cases c with
  | obj o => exact ⟨o, rfl⟩
  | _ => simp [isValidConfigStructure, getField, JSValue.field, minimalShape, getOwn,
      JSValue.truthy, JSValue.isUndefined] at h

/-- C7, at the one entry handed to `addSource` (the plex entry `p2`) in a world with a
`lastfm.json` entry without `configureAs` and a `plex.json` entry with `configureAs: "client"`. -/
theorem addSourceCalls_role_witness :
    (∀ c, rolesWorld.isValidConfigStructure c minimalShape = .ok none → ∃ o, c = .obj o) ∧
    (addSourceCalls rolesWorld freshSources []).1.map (fun c => (c.field "type", c.field "name"))
      = [(.str "plex", .str "p2")] ∧
    ((∃ a ∈ ([] : List JSValue), ∃ n,
        withName (.obj [("name", .str "p2"), ("data", .obj [("user", .str "u")]),
          ("source", .str "plex.json"), ("type", .str "plex")]) (.str "p2") = withName a n) ∨
      configuredAsSource
        (withName (.obj [("name", .str "p2"), ("data", .obj [("user", .str "u")]),
          ("source", .str "plex.json"), ("type", .str "plex")]) (.str "p2")) = true) :=
  ⟨isValidConfigStructure_minimal_obj, rfl,
   addSourceCalls_role rolesWorld freshSources [] isValidConfigStructure_minimal_obj _
     (List.mem_singleton.2 rfl)⟩

/-- C7, as stated, fails on the externally supplied entry `{type: "spotify", name: "ext",
configureAs: "client", ...}`: it is handed to `addSource` and its adapter is registered. -/
theorem external_client_entry_is_added :
    configuredAsSource clientEntry = false ∧
    (addSourceCalls quietWorld freshSources [clientEntry]).1.map
        (fun c => (c.field "type", c.field "name", c.field "configureAs")) =
      [(.str "spotify", .str "ext", .str "client")] ∧
    (buildSourcesFromConfig quietWorld freshSources [clientEntry]).1.sources.map
        (fun a => (a.type, a.name)) = [("spotify", .str "ext")] := by
  exact ⟨rfl, rfl, rfl⟩

/-! ### Name resolution on keys that no prototype defines -/

theorem groupedBy_nil (key : JSValue → String) : GroupedBy key [] [] := by
  refine ⟨List.nodup_nil, ?_, ?_⟩
  · intro p hp; cases hp
  · intro c hc; cases hc

theorem addToGroup_groupedBy (key : JSValue → String) (pre : List JSValue) (acc : Groups)
    (c : JSValue) (hacc : GroupedBy key pre acc)
    (hproto : objectPrototypeKeys.contains (key c) = false) :
    ∃ acc', addToGroup acc (key c) c = .ok acc' ∧ GroupedBy key (pre ++ [c]) acc' := by
  obtain ⟨hnodup, hgroups, hcover⟩ := hacc
  unfold addToGroup groupLookup
  cases hl : acc.lookup (key c) with
  | none =>
    have hnot : ∀ p ∈ acc, p.1 ≠ key c := by
      intro p hp heq
      have := (List.lookup_eq_none_iff.1 hl) p hp
      simp [heq] at this
    have hany : acc.any (fun p => p.1 == key c) = false := by
      rw [List.any_eq_false]
      intro p hp
      simpa using hnot p hp
    have hnk : key c ∉ acc.map Prod.fst := by
      intro hmem
      obtain ⟨p, hp, hpk⟩ := List.mem_map.1 hmem
      exact hnot p hp hpk
    have hpre : pre.filter (fun d => key d == key c) = [] := by
      rw [List.filter_eq_nil_iff]
      intro d hd hk
      have hk' : key d = key c := by simpa using hk
      exact hnk (hk' ▸ hcover d hd)
    have hproto' : key c ∉ objectPrototypeKeys := by simpa using hproto
    refine ⟨acc ++ [(key c, [] ++ [c])], by simp [hproto', groupSet, hany], ?_, ?_, ?_⟩
    · rw [List.map_append, List.nodup_append]
      refine ⟨hnodup, by simp, ?_⟩
      intro a ha hb
      have : a = key c := by simpa using hb
      exact hnk (this ▸ ha)
    · intro p hp
      rcases List.mem_append.1 hp with h1 | h1
      · have hne : (key c == p.1) = false := by
          have := hnot p h1
          simpa using fun h => this h.symm
        rw [List.filter_append, hgroups p h1]
        simp [hne]
      · have hpe : p = (key c, [] ++ [c]) := by simpa using h1
        subst hpe
        rw [List.filter_append, hpre]
        simp
    · intro d hd
      rw [List.map_append]
      rcases List.mem_append.1 hd with h1 | h1
      · exact List.mem_append_left _ (hcover d h1)
      · have hde : d = c := by simpa using h1
        subst hde
        exact List.mem_append_right _ (by simp)
  | some g =>
    obtain ⟨l₁, l₂, hsplit, _⟩ := List.lookup_eq_some_iff.1 hl
    have hmem : (key c, g) ∈ acc := by rw [hsplit]; simp
    have hany : acc.any (fun p => p.1 == key c) = true := by
      rw [List.any_eq_true]
      exact ⟨(key c, g), hmem, by simp⟩
    have hg : g = pre.filter (fun d => key d == key c) := hgroups _ hmem
    refine ⟨acc.map (fun p => if p.1 == key c then (p.1, g ++ [c]) else p),
      by simp [groupSet, hany], ?_, ?_, ?_⟩
    · have hkeys : (acc.map (fun p => if p.1 == key c then (p.1, g ++ [c]) else p)).map Prod.fst
          = acc.map Prod.fst := by
        rw [List.map_map]
        apply List.map_congr_left
        intro p _
        simp only [Function.comp]
        split <;> rfl
      rw [hkeys]
      exact hnodup
    · intro p hp
      obtain ⟨q, hq, hqp⟩ := List.mem_map.1 hp
      by_cases hk : (q.1 == key c) = true
      · rw [if_pos hk] at hqp
        subst hqp
        have hk' : q.1 = key c := by simpa using hk
        simp only
        rw [List.filter_append, hk', ← hg]
        simp
      · rw [if_neg hk] at hqp
        subst hqp
        have hne : (key c == q.1) = false := by
          simpa using fun h => hk (by simpa using h.symm)
        rw [List.filter_append, hgroups q hq]
        simp [hne]
    · intro d hd
      have hkeys : (acc.map (fun p => if p.1 == key c then (p.1, g ++ [c]) else p)).map Prod.fst
          = acc.map Prod.fst := by
        rw [List.map_map]
        apply List.map_congr_left
        intro p _
        simp only [Function.comp]
        split <;> rfl
      rw [hkeys]
      rcases List.mem_append.1 hd with h1 | h1
      · exact hcover d h1
      · have hde : d = c := by simpa using h1
        subst hde
        exact List.mem_map.2 ⟨(key d, g), hmem, rfl⟩

theorem groupBy_fold_groupedBy (keyOf : JSValue → Except JSError String) (key : JSValue → String)
    (xs pre : List JSValue) (acc : Groups) (hacc : GroupedBy key pre acc)
    (hkeys : ∀ c ∈ xs, keyOf c = .ok (key c) ∧ objectPrototypeKeys.contains (key c) = false) :
    ∃ res, xs.foldlM (groupStep keyOf) acc = .ok res ∧ GroupedBy key (pre ++ xs) res := by
  induction xs generalizing pre acc with
  | nil => exact ⟨acc, rfl, by simpa using hacc⟩
  | cons x rest ih =>
    obtain ⟨hk, hp⟩ := hkeys x (List.mem_cons_self _ _)
    obtain ⟨acc', hstep, hacc'⟩ := addToGroup_groupedBy key pre acc x hacc hp
    obtain ⟨res, hres, hgr⟩ := ih (pre ++ [x]) acc' hacc'
      (fun c hc => hkeys c (List.mem_cons_of_mem _ hc))
    refine ⟨res, ?_, by simpa using hgr⟩
    simp only [List.foldlM_cons, bind, Except.bind, groupStep, hk, hstep]
    exact hres

theorem groupBy_groupedBy (keyOf : JSValue → Except JSError String) (key : JSValue → String)
    (xs : List JSValue)
    (hkeys : ∀ c ∈ xs, keyOf c = .ok (key c) ∧ objectPrototypeKeys.contains (key c) = false) :
    ∃ res, groupBy keyOf xs = .ok res ∧ GroupedBy key xs res := by
  simpa [groupBy] using groupBy_fold_groupedBy keyOf key xs [] [] (groupedBy_nil key) hkeys

theorem objectEntries_perm {β : Type} (o : List (String × β)) : (objectEntries o).Perm o := by
  unfold objectEntries
  exact ((List.perm_insertionSort _ _).append_right _).trans (List.filter_append_perm _ o)

theorem partition_perm {α β : Type} (key : α → String) (groups : List (String × β))
    (E : List α) (hnodup : (groups.map Prod.fst).Nodup)
    (hcover : ∀ e ∈ E, key e ∈ groups.map Prod.fst) :
    (groups.flatMap (fun p => E.filter (fun e => key e == p.1))).Perm E := by
  induction groups generalizing E with
  | nil =>
    cases E with
    | nil => exact List.Perm.refl _
    | cons e es => exact absurd (hcover e (List.mem_cons_self _ _)) (by simp)
  | cons g gs ih =>
    rw [List.map_cons, List.nodup_cons] at hnodup
    obtain ⟨hg, hgs⟩ := hnodup
    have hrest : ∀ p ∈ gs, E.filter (fun e => key e == p.1) =
        (E.filter (fun e => !(key e == g.1))).filter (fun e => key e == p.1) := by
      intro p hp
      rw [List.filter_filter]
      apply List.filter_congr
      intro e _
      by_cases hk : key e = p.1
      · have hne : ¬ p.1 = g.1 := fun h => hg (h ▸ List.mem_map.2 ⟨p, hp, rfl⟩)
        simp [hk, hne]
      · simp [hk]
    have hcov' : ∀ e ∈ E.filter (fun e => !(key e == g.1)), key e ∈ gs.map Prod.fst := by
      intro e he
      obtain ⟨he1, he2⟩ := List.mem_filter.1 he
      have := hcover e he1
      rw [List.map_cons, List.mem_cons] at this
      rcases this with h | h
      · simp [h] at he2
      · exact h
    have h1 : (gs.flatMap (fun p => E.filter (fun e => key e == p.1))).Perm
        (E.filter (fun e => !(key e == g.1))) := by
      have h2 := ih (E.filter (fun e => !(key e == g.1))) hgs hcov'
      refine List.Perm.trans (List.Perm.flatMap_left gs ?_) h2
      intro p hp
      rw [hrest p hp]
    rw [List.flatMap_cons]
    exact (List.Perm.append_left _ h1).trans (List.filter_append_perm _ E)

theorem renameConfig_ok (d : Bool) (j : Nat) (c : JSValue) (k : String)
    (hk : nameKey c = .ok k) :
    renameConfig d j c =
      .ok (withName c (if d then .str (k ++ toString (j + 1))
        else (c.field "name").orDefault (.str "unnamed"))) := by
  unfold nameKey at hk
  unfold renameConfig
  cases hg : getField c "name" with
  | error e => rw [hg] at hk; cases hk
  | ok n =>
    rw [hg] at hk
    simp only at hk
    have hn : n = c.field "name" := by
      cases c <;> simp_all [getField]
    subst hn
    simp only
    cases d with
    | true => simp [hk]
    | false => simp

theorem renameAll_filter (full : List JSValue) (p : JSValue → Bool) (d : Bool)
    (hd : d = decide (full.countP p > 1))
    (hp : ∀ c ∈ full, p c = true →
      nameKey c = .ok (nameKeyOf c) ∧ ∀ x ∈ full, sameGroup c x = p x)
    (xs pre : List JSValue) (hfull : full = pre ++ xs) :
    renameAll d (pre.countP p) (xs.filter p) =
      .ok (((xs.enumFrom pre.length).filter (fun q => p q.2)).map
        (fun q => withName q.2 (expectedName full q.1 q.2))) := by
  induction xs generalizing pre with
  | nil => rfl
  | cons c rest ih =>
    have hfull' : full = (pre ++ [c]) ++ rest := by simp [hfull]
    have hih := ih (pre ++ [c]) hfull'
    have hc : c ∈ full := by rw [hfull]; simp
    by_cases hpc : p c = true
    · obtain ⟨hkey, hsame⟩ := hp c hc hpc
      have hcount : (pre ++ [c]).countP p = pre.countP p + 1 := by
        simp [List.countP_append, hpc]
      rw [hcount] at hih
      have hlen : (pre ++ [c]).length = pre.length + 1 := by simp
      rw [hlen] at hih
      have hsize : full.countP (sameGroup c) = full.countP p :=
        List.countP_congr (fun x hx => by rw [hsame x hx])
      have htake : full.take (pre.length + 1) = pre ++ [c] := by
        rw [hfull']
        exact List.take_left' hlen
      have hrank : (full.take (pre.length + 1)).countP (sameGroup c) = pre.countP p + 1 := by
        rw [htake, ← hcount]
        apply List.countP_congr
        intro x hx
        have hxf : x ∈ full := by
          rw [hfull']
          exact List.mem_append_left _ hx
        rw [hsame x hxf]
      have hname : expectedName full pre.length c =
          (if d then .str (nameKeyOf c ++ toString (pre.countP p + 1))
            else (c.field "name").orDefault (.str "unnamed")) := by
        unfold expectedName
        rw [hsize, hrank, hd]
        by_cases hgt : full.countP p > 1
        · simp [hgt]
        · simp [hgt]
      simp only [List.filter_cons, hpc, if_true, renameAll, List.enumFrom_cons, List.map_cons]
      rw [renameConfig_ok d (pre.countP p) c _ hkey, hih, hname]
    · have hpc' : p c = false := by simpa using hpc
      have hcount : (pre ++ [c]).countP p = pre.countP p := by
        simp [List.countP_append, hpc']
      rw [hcount] at hih
      have hlen : (pre ++ [c]).length = pre.length + 1 := by simp
      rw [hlen] at hih
      simp only [List.filter_cons, hpc', List.enumFrom_cons]
      simpa using hih

theorem conflictLabels_ok (g : List JSValue) (h : ∀ c ∈ g, ∃ l, conflictLabel c = .ok l) :
    ∃ ls, conflictLabels g = .ok ls := by
  induction g with
  | nil => exact ⟨[], rfl⟩
  | cons c rest ih =>
    obtain ⟨l, hl⟩ := h c (List.mem_cons_self _ _)
    obtain ⟨ls, hls⟩ := ih (fun x hx => h x (List.mem_cons_of_mem _ hx))
    exact ⟨l :: ls, by simp [conflictLabels, hl, hls]⟩

theorem resolveNamed_eq (gs : List (String × List JSValue))
    (R : String × List JSValue → List JSValue)
    (hlabels : ∀ g ∈ gs, ∀ c ∈ g.2, ∃ l, conflictLabel c = .ok l)
    (hrename : ∀ g ∈ gs, renameAll (decide (g.2.length > 1)) 0 g.2 = .ok (R g)) :
    resolveNamed gs = (gs.flatMap R, none) := by
  induction gs with
  | nil => rfl
  | cons g rest ih =>
    obtain ⟨k, namedConfigs⟩ := g
    have hrest := ih (fun g hg => hlabels g (List.mem_cons_of_mem _ hg))
      (fun g hg => hrename g (List.mem_cons_of_mem _ hg))
    have hr := hrename (k, namedConfigs) (List.mem_cons_self _ _)
    obtain ⟨ls, hls⟩ := conflictLabels_ok namedConfigs
      (hlabels (k, namedConfigs) (List.mem_cons_self _ _))
    simp only at hr
    simp only [resolveNamed, hr, hrest, List.flatMap_cons]
    by_cases hdup : namedConfigs.length > 1
    · simp [hdup, hls]
    · simp [hdup]

theorem resolveTyped_perm (gs : List (String × List JSValue))
    (F : String × List JSValue → List JSValue)
    (h : ∀ g ∈ gs, ∃ named calls, nameGroupedConfigs g.2 = .ok named ∧
      resolveNamed (objectEntries named) = (calls, none) ∧ calls.Perm (F g)) :
    (resolveTyped gs).2 = none ∧ (resolveTyped gs).1.Perm (gs.flatMap F) := by
  induction gs with
  | nil => exact ⟨rfl, List.Perm.refl _⟩
  | cons g rest ih =>
    obtain ⟨k, typedConfigs⟩ := g
    obtain ⟨hnone, hperm⟩ := ih (fun g hg => h g (List.mem_cons_of_mem _ hg))
    obtain ⟨named, calls, hn, hr, hc⟩ := h (k, typedConfigs) (List.mem_cons_self _ _)
    simp only at hn hr
    simp only [resolveTyped, hn, hr, List.flatMap_cons]
    exact ⟨hnone, List.Perm.append hc hperm⟩

theorem keys_objectEntries {β : Type} (o : List (String × β)) :
    ((objectEntries o).map Prod.fst).Perm (o.map Prod.fst) :=
  (objectEntries_perm o).map _

theorem typeGroup_resolved (valid : List JSValue) (hplain : ∀ c ∈ valid, PlainKeys c)
    (kt : String) :
    ∃ named calls,
      nameGroupedConfigs (valid.filter (fun c => typeKeyOf c == kt)) = .ok named ∧
      resolveNamed (objectEntries named) = (calls, none) ∧
      calls.Perm ((valid.enum.filter (fun q => typeKeyOf q.2 == kt)).map
        (fun q => withName q.2 (expectedName valid q.1 q.2))) := by
  have hsub : ∀ c ∈ valid.filter (fun c => typeKeyOf c == kt), c ∈ valid :=
    fun c hc => (List.mem_filter.1 hc).1
  obtain ⟨named, hnamed, hnodup, hgroups, hcover⟩ :=
    groupBy_groupedBy nameKey nameKeyOf (valid.filter (fun c => typeKeyOf c == kt))
      (fun c hc => ⟨(hplain c (hsub c hc)).2.2.1, (hplain c (hsub c hc)).2.2.2.1⟩)
  have hgroup : ∀ g ∈ objectEntries named,
      g.2 = valid.filter (fun c => nameKeyOf c == g.1 && typeKeyOf c == kt) := by
    intro g hg
    rw [hgroups g (objectEntries_mem _ _ hg), List.filter_filter]
  have hrename : ∀ g ∈ objectEntries named,
      renameAll (decide (g.2.length > 1)) 0 g.2 =
        .ok ((valid.enum.filter (fun q => nameKeyOf q.2 == g.1 && typeKeyOf q.2 == kt)).map
          (fun q => withName q.2 (expectedName valid q.1 q.2))) := by
    intro g hg
    have h1 := renameAll_filter valid (fun c => nameKeyOf c == g.1 && typeKeyOf c == kt)
      (decide (g.2.length > 1))
      (by rw [hgroup g hg, ← List.countP_eq_length_filter])
      (by
        intro c hc hpc
        refine ⟨(hplain c hc).2.2.1, ?_⟩
        intro x _
        simp only [Bool.and_eq_true, beq_iff_eq] at hpc
        unfold sameGroup
        rw [hpc.1, hpc.2, Bool.and_comm])
      valid [] rfl
    rw [hgroup g hg] at h1 ⊢
    simpa [List.enum] using h1
  refine ⟨named, _, hnamed, resolveNamed_eq (objectEntries named) _ ?_ hrename, ?_⟩
  · intro g hg c hc
    rw [hgroup g hg] at hc
    exact (hplain c (List.mem_filter.1 hc).1).2.2.2.2
  · have hflat : (objectEntries named).flatMap (fun g =>
          (valid.enum.filter (fun q => nameKeyOf q.2 == g.1 && typeKeyOf q.2 == kt)).map
            (fun q => withName q.2 (expectedName valid q.1 q.2))) =
        ((objectEntries named).flatMap (fun g =>
          (valid.enum.filter (fun q => typeKeyOf q.2 == kt)).filter
            (fun q => nameKeyOf q.2 == g.1))).map
          (fun q => withName q.2 (expectedName valid q.1 q.2)) := by
      rw [List.map_flatMap]
      congr 1
      funext g
      rw [List.filter_filter]
    rw [hflat]
    apply List.Perm.map
    apply partition_perm (fun q : Nat × JSValue => nameKeyOf q.2)
    · exact (keys_objectEntries named).nodup_iff.2 hnodup
    · intro e he
      obtain ⟨he1, he2⟩ := List.mem_filter.1 he
      have hmem : e.2 ∈ valid.filter (fun c => typeKeyOf c == kt) :=
        List.mem_filter.2 ⟨List.snd_mem_of_mem_enum he1, he2⟩
      exact (keys_objectEntries named).mem_iff.2 (hcover e.2 hmem)

/-- Name resolution on entries with plain keys: nothing is thrown, and the entries handed to
`addSource` are, up to order, the valid entries, each with the name the spec gives it. -/
theorem resolveNames_plain (valid : List JSValue) (hplain : ∀ c ∈ valid, PlainKeys c) :
    (resolveNames valid).2 = none ∧ (resolveNames valid).1.Perm (expectedResolved valid) := by
  obtain ⟨typed, htyped, hnodup, hgroups, hcover⟩ :=
    groupBy_groupedBy typeKey typeKeyOf valid
      (fun c hc => ⟨(hplain c hc).1, (hplain c hc).2.1⟩)
  have hres := resolveTyped_perm (objectEntries typed)
    (fun g => (valid.enum.filter (fun q => typeKeyOf q.2 == g.1)).map
      (fun q => withName q.2 (expectedName valid q.1 q.2)))
    (by
      intro g hg
      rw [hgroups g (objectEntries_mem _ _ hg)]
      exact typeGroup_resolved valid hplain g.1)
  unfold resolveNames typeGroupedConfigs
  rw [htyped]
  refine ⟨hres.1, hres.2.trans ?_⟩
  rw [← List.map_flatMap]
  unfold expectedResolved
  apply List.Perm.map
  apply partition_perm (fun q : Nat × JSValue => typeKeyOf q.2)
  · exact (keys_objectEntries typed).nodup_iff.2 hnodup
  · intro e he
    exact (keys_objectEntries typed).mem_iff.2 (hcover e.2 (List.snd_mem_of_mem_enum he))

/-! ### Environment entries -/

theorem processEnv_isUndefined (w : Collaborators) (var : String) :
    (processEnv w var).isUndefined = true ↔ w.env var = none := by
  unfold processEnv
  cases w.env var <;> simp [JSValue.isUndefined]

theorem envEntry_shape (type : String) (data : JSObject) (e : JSValue)
    (he : e ∈ envEntry type data) :
    e.field "type" = .str type ∧ e.field "name" = .str "unnamed" ∧
    e.field "source" = .str "ENV" ∧ e.field "mode" = .str "single" ∧
    e.field "data" = .obj data := by
  unfold envEntry at he
  split at he
  · rw [List.mem_singleton] at he
    subst he
    simp [JSValue.field, getOwn]
  · cases he

/-- Every environment entry is the only one of its type and carries `source = "ENV"`,
`mode = "single"` and `name = "unnamed"`. -/
theorem envConfigs_shape (w : Collaborators) (t : String) :
    (envConfigs w t).length ≤ 1 ∧
    ∀ e ∈ envConfigs w t, e.field "type" = .str t ∧ e.field "name" = .str "unnamed" ∧
      e.field "source" = .str "ENV" ∧ e.field "mode" = .str "single" := by
  have hlen : ∀ type data, (envEntry type data).length ≤ 1 := by
    intro type data
    unfold envEntry
    split <;> simp
  have hshape : ∀ type data, ∀ e ∈ envEntry type data, e.field "type" = .str type ∧
      e.field "name" = .str "unnamed" ∧ e.field "source" = .str "ENV" ∧
      e.field "mode" = .str "single" := by
    intro type data e he
    obtain ⟨h1, h2, h3, h4, _⟩ := envEntry_shape type data e he
    exact ⟨h1, h2, h3, h4⟩
  unfold envConfigs
  split
  · exact ⟨hlen _ _, hshape _ _⟩
  · exact ⟨hlen _ _, hshape _ _⟩
  · exact ⟨hlen _ _, hshape _ _⟩
  · exact ⟨hlen _ _, hshape _ _⟩
  · exact ⟨hlen _ _, hshape _ _⟩
  · exact ⟨by simp, fun e he => by cases he⟩
  · exact ⟨by simp, fun e he => by cases he⟩
  · exact ⟨hlen _ _, hshape _ _⟩
  · exact ⟨by simp, fun e he => by cases he⟩

/-- For spotify, plex, subsonic, jellyfin and apple no environment entry is synthesized exactly
when every variable of the type is unset; for tautulli exactly when `TAUTULLI_USER` is unset or
empty and `PLEX_USER` is unset. -/
theorem envConfigs_eq_nil_iff (w : Collaborators) :
    (∀ t ∈ ["spotify", "plex", "subsonic", "jellyfin", "apple"],
      (envConfigs w t = [] ↔ ∀ var ∈ envVariables t, w.env var = none)) ∧
    (envConfigs w "tautulli" = [] ↔
      (w.env "TAUTULLI_USER" = none ∨ w.env "TAUTULLI_USER" = some "") ∧
      w.env "PLEX_USER" = none) := by
  constructor
  · intro t ht
    simp only [List.mem_cons, List.mem_singleton, List.not_mem_nil, or_false] at ht
    rcases ht with h | h | h | h | h <;> subst h <;>
      simp [envConfigs, envEntry, envVariables, processEnv_isUndefined]
  · simp only [envConfigs, envEntry, processEnv, JSValue.orElse]
    cases h1 : w.env "TAUTULLI_USER" with
    | none =>
      cases h2 : w.env "PLEX_USER" with
      | none => simp [JSValue.truthy, JSValue.isUndefined]
      | some s => simp [JSValue.truthy, JSValue.isUndefined]
    | some u =>
      cases h2 : w.env "PLEX_USER" with
      | none =>
        by_cases hu : u = ""
        · simp [JSValue.truthy, JSValue.isUndefined, hu]
        · simp [JSValue.truthy, JSValue.isUndefined, hu]
      | some s =>
        by_cases hu : u = ""
        · simp [JSValue.truthy, JSValue.isUndefined, hu]
        · simp [JSValue.truthy, JSValue.isUndefined, hu]

/-! ### `callApi` -/

/-- C11: for the transport error of an HTTP 404 (message `Not Found`, a response without a
Subsonic envelope) `callApi` throws the error again and logs the one line
`API Call failed: Server Response => undefined`, which does not contain `Not Found`; the same
line is logged whatever the message, status and text of such an error are. -/
theorem callApi_response_without_envelope :
    (callApi homeSubsonic "c19b2d" fixedDigest (fun _ => .error notFoundError)).result =
      .error notFoundError ∧
    (callApi homeSubsonic "c19b2d" fixedDigest (fun _ => .error notFoundError)).log.map
        (fun l => l.msg) = ["API Call failed: Server Response => undefined"] ∧
    containsText "API Call failed: Server Response => undefined" "Not Found" = false ∧
    ∀ (message text : String) (status : JSValue),
      (callApi homeSubsonic "c19b2d" fixedDigest (fun _ => .error
        (.obj [("message", .str message),
               ("response", .obj [("status", status), ("body", .obj []),
                                  ("text", .str text)])]))).log.map (fun l => l.msg) =
        ["API Call failed: Server Response => undefined"] := by
  exact ⟨rfl, rfl, rfl, fun _ _ _ => rfl⟩

theorem opensWith_append (sub rest : List Char) : opensWith (sub ++ rest) sub = true := by
  induction sub with
  | nil => cases rest <;> rfl
  | cons c cs ih => simp [opensWith, ih]

theorem occursIn_append (pre sub : List Char) : occursIn sub (pre ++ sub) = true := by
  induction pre with
  | nil =>
    cases sub with
    | nil => rfl
    | cons c cs =>
      have h := opensWith_append (c :: cs) []
      simp only [List.append_nil] at h
      simp [occursIn, h]
  | cons p ps ih => simp [occursIn, ih]

theorem containsText_append (pre sub : String) : containsText (pre ++ sub) sub = true := by
  unfold containsText
  rw [String.data_append]
  exact occursIn_append _ _

theorem field_ne_undefined (v : JSValue) (k : String) (h : v.field k ≠ .undefined) :
    ∃ o, v = .obj o := by
  cases v with
  | obj o => exact ⟨o, rfl⟩
  | _ => exact absurd rfl h

theorem orDefault_obj (o : JSObject) (d : JSValue) : (JSValue.obj o).orDefault d = .obj o := rfl

/-- When the caught value carries a response whose envelope has an error with the message `m`,
the `catch` block logs one line, `API Call failed: Server Response => m`, and throws the caught
value again. -/
theorem handleFailure_upstream_message (e : JSValue) (m : String)
    (h : ((((e.field "response").field "body").field "subsonic-response").field "error").field
      "message" = .str m) :
    (handleFailure e).result = .error e ∧
    (handleFailure e).log.map (fun l => l.msg) =
      ["API Call failed: Server Response => " ++ m] ∧
    containsText ("API Call failed: Server Response => " ++ m) m = true := by
  have hne : ∀ {v : JSValue} {k : String}, v.field k = .str m → v.field k ≠ .undefined := by
    intro v k hv
    rw [hv]
    exact fun h => by cases h
  obtain ⟨oerr, herr⟩ := field_ne_undefined _ _ (hne h)
  obtain ⟨oenv, henv⟩ := field_ne_undefined _ _ (by rw [herr]; exact fun h => by cases h)
  obtain ⟨obody, hbody⟩ := field_ne_undefined _ _ (by rw [henv]; exact fun h => by cases h)
  obtain ⟨oresp, hresp⟩ := field_ne_undefined _ _ (by rw [hbody]; exact fun h => by cases h)
  obtain ⟨oe, hoe⟩ := field_ne_undefined _ _ (by rw [hresp]; exact fun h => by cases h)
  subst hoe
  rw [herr] at h
  rw [hresp] at hbody henv herr
  rw [hbody] at henv herr
  rw [henv] at herr
  have hread : readFailure (.obj oe) = .ok
      { message := (JSValue.obj oe).field "message",
        status := (JSValue.obj oresp).field "status",
        ssStatus := (JSValue.obj oenv).field "status",
        code := (JSValue.obj oerr).field "code",
        ssMessage := .str m,
        ssResp := .obj oenv,
        text := (JSValue.obj oresp).field "text",
        response := .obj oresp } := by
    unfold readFailure
    simp only [getField, hresp, orDefault_obj, hbody, henv, herr, h]
  refine ⟨?_, ?_, containsText_append _ _⟩
  · unfold handleFailure
    rw [hread]
    rfl
  · unfold handleFailure
    rw [hread]
    rfl

/-- When the caught value is not `null` or `undefined`, carries no `response` and its `message`
is the text `m`, the `catch` block logs one line, `API Call failed: m`, and throws the caught
value again. -/
theorem handleFailure_transport_message (e : JSValue) (m : String)
    (hresp : e.field "response" = .undefined) (hmsg : e.field "message" = .str m) :
    (handleFailure e).result = .error e ∧
    (handleFailure e).log.map (fun l => l.msg) = ["API Call failed: " ++ m] ∧
    containsText ("API Call failed: " ++ m) m = true := by
  obtain ⟨oe, hoe⟩ := field_ne_undefined e "message" (by rw [hmsg]; exact fun h => by cases h)
  subst hoe
  have hread : readFailure (.obj oe) = .ok
      { message := .str m, status := .undefined, ssStatus := .undefined, code := .undefined,
        ssMessage := .undefined, ssResp := .undefined, text := .undefined,
        response := .undefined } := by
    unfold readFailure
    simp only [getField, hresp, hmsg]
    rfl
  refine ⟨?_, ?_, containsText_append _ _⟩
  · unfold handleFailure
    rw [hread]
    rfl
  · unfold handleFailure
    rw [hread]
    rfl

/-- A request that rejects hands the rejection value to the `catch` block. -/
theorem callApi_of_rejection (self : Adapter) (salt : String) (md5 : String → String)
    (req : JSObject → Except JSValue JSValue) (pw name : String) (e : JSValue)
    (hpw : toStringJS (getOwn self.config "password") = .ok pw)
    (hname : toStringJS self.name = .ok name)
    (hreq : req (apiQuery self salt md5 pw name) = .error e) :
    callApi self salt md5 req = handleFailure e := by
  unfold callApi
  rw [hpw]
  simp only
  rw [hname]
  simp only
  rw [hreq]

/-- A response whose envelope status is `failed` hands the `catch` block a new error with the
message `Subsonic API returned an error` that carries the response. -/
theorem callApi_of_failed_status (self : Adapter) (salt : String) (md5 : String → String)
    (req : JSObject → Except JSValue JSValue) (pw name : String) (resp : JSValue)
    (hpw : toStringJS (getOwn self.config "password") = .ok pw)
    (hname : toStringJS self.name = .ok name)
    (hreq : req (apiQuery self salt md5 pw name) = .ok resp)
    (hstatus : ((resp.field "body").field "subsonic-response").field "status" = .str "failed") :
    callApi self salt md5 req =
      handleFailure
        (.obj [("message", .str "Subsonic API returned an error"), ("response", resp)]) := by
  obtain ⟨oenv, henv⟩ := field_ne_undefined _ _
    (show ((resp.field "body").field "subsonic-response").field "status" ≠ .undefined by
      rw [hstatus]; exact fun h => by cases h)
  obtain ⟨obody, hbody⟩ := field_ne_undefined _ _
    (show (resp.field "body").field "subsonic-response" ≠ .undefined by
      rw [henv]; exact fun h => by cases h)
  obtain ⟨oresp, horesp⟩ := field_ne_undefined _ _
    (show resp.field "body" ≠ .undefined by rw [hbody]; exact fun h => by cases h)
  subst horesp
  rw [henv] at hstatus
  rw [hbody] at henv
  have hread : readEnvelope (.obj oresp) = .ok (.str "failed", .obj oenv) := by
    unfold readEnvelope
    simp only [getField, hbody, orDefault_obj, henv, hstatus]
  unfold callApi
  rw [hpw]
  simp only
  rw [hname]
  simp only
  rw [hreq]
  simp only
  rw [hread]
  rfl

/-- The part of C11 that holds: a failed call (a rejected request, or a response whose envelope
status is `failed`) whose failure response carries an envelope with the error message `m` logs
`API Call failed: Server Response => m` and throws; a rejected request whose error carries no
response and has the message `m` logs `API Call failed: m` and throws the error again. -/
theorem callApi_failure_logged (self : Adapter) (salt : String) (md5 : String → String)
    (req : JSObject → Except JSValue JSValue) (pw name : String)
    (hpw : toStringJS (getOwn self.config "password") = .ok pw)
    (hname : toStringJS self.name = .ok name) :
    (∀ e m, req (apiQuery self salt md5 pw name) = .error e →
      ((((e.field "response").field "body").field "subsonic-response").field "error").field
        "message" = .str m →
      (callApi self salt md5 req).result = .error e ∧
      (callApi self salt md5 req).log.map (fun l => l.msg) =
        ["API Call failed: Server Response => " ++ m]) ∧
    (∀ e m, req (apiQuery self salt md5 pw name) = .error e →
      e.field "response" = .undefined → e.field "message" = .str m →
      (callApi self salt md5 req).result = .error e ∧
      (callApi self salt md5 req).log.map (fun l => l.msg) = ["API Call failed: " ++ m]) ∧
    (∀ resp m, req (apiQuery self salt md5 pw name) = .ok resp →
      ((resp.field "body").field "subsonic-response").field "status" = .str "failed" →
      (((resp.field "body").field "subsonic-response").field "error").field "message" = .str m →
      (callApi self salt md5 req).result =
        .error (.obj [("message", .str "Subsonic API returned an error"), ("response", resp)]) ∧
      (callApi self salt md5 req).log.map (fun l => l.msg) =
        ["API Call failed: Server Response => " ++ m]) := by
  refine ⟨?_, ?_, ?_⟩
  · intro e m hreq hm
    rw [callApi_of_rejection self salt md5 req pw name e hpw hname hreq]
    exact ⟨(handleFailure_upstream_message e m hm).1, (handleFailure_upstream_message e m hm).2.1⟩
  · intro e m hreq hr hm
    rw [callApi_of_rejection self salt md5 req pw name e hpw hname hreq]
    exact ⟨(handleFailure_transport_message e m hr hm).1,
      (handleFailure_transport_message e m hr hm).2.1⟩
  · intro resp m hreq hs hm
    rw [callApi_of_failed_status self salt md5 req pw name resp hpw hname hreq hs]
    have h := handleFailure_upstream_message
      (.obj [("message", .str "Subsonic API returned an error"), ("response", resp)]) m
      (by simpa [JSValue.field, getOwn] using hm)
    exact ⟨h.1, h.2.1⟩

/-- The scenario of the spec: a ping answered with HTTP 200 and the envelope `status: "failed",
error: {message: "Wrong username or password"}` throws and logs the server's message; a refused
connection logs the transport message. -/
theorem callApi_scenarios :
    (callApi homeSubsonic "c19b2d" fixedDigest (fun _ => .ok wrongPasswordResponse)).result =
      .error (.obj [("message", .str "Subsonic API returned an error"),
                    ("response", wrongPasswordResponse)]) ∧
    (callApi homeSubsonic "c19b2d" fixedDigest (fun _ => .ok wrongPasswordResponse)).log.map
        (fun l => l.msg) = ["API Call failed: Server Response => Wrong username or password"] ∧
    (callApi homeSubsonic "c19b2d" fixedDigest (fun _ => .error refusedError)).result =
      .error refusedError ∧
    (callApi homeSubsonic "c19b2d" fixedDigest (fun _ => .error refusedError)).log.map
        (fun l => l.msg) = ["API Call failed: connect ECONNREFUSED 127.0.0.1:4533"] := by
  exact ⟨rfl, rfl, rfl, rfl⟩

/-! ### A per-type file that cannot be parsed -/

/-- C6: when the per-type file of a type `T` cannot be parsed, the iteration for `T` pushes
exactly what the environment builder synthesizes for `T` (at most one entry, of source `ENV`)
and nothing from the file; the iteration of every type pushes what it pushes when `T.json` is
missing; and the collected configs are those collected when `T.json` is missing, whatever the
environment and the other files are. -/
theorem malformed_file_as_missing (w : Collaborators) (self : ScrobbleSources) (T : String)
    (e : JSError) (additionalConfigs : List JSValue) (hT : T ∈ sourceTypes)
    (hbad : w.readJson (configPath self T) = .error e) :
    perTypeConfigs w self T = envConfigs w T ∧
    (perTypeConfigs w self T).length ≤ 1 ∧
    (∀ c ∈ perTypeConfigs w self T, c.field "source" = .str "ENV") ∧
    (∀ T', perTypeConfigs w self T' =
      perTypeConfigs (withFileMissing w (configPath self T)) self T') ∧
    collectConfigs w self additionalConfigs =
      collectConfigs (withFileMissing w (configPath self T)) self additionalConfigs := by
  have henv : perTypeConfigs w self T = envConfigs w T := by
    unfold perTypeConfigs
    rw [hbad]
    simp
  refine ⟨henv, ?_, ?_, ?_, ?_⟩
  · rw [henv]
    exact (envConfigs_shape w T).1
  · intro c hc
    rw [henv] at hc
    exact ((envConfigs_shape w T).2 c hc).2.2.1
  · exact fun T' => (perTypeConfigs_withFileMissing w self _ e hbad T').symm
  · have hne : configPath self "config" ≠ configPath self T := by
      intro h
      have h2 := configPath_injective self _ _ h
      subst h2
      simp [sourceTypes] at hT
    have hmain : mainConfigs (withFileMissing w (configPath self T)) self = mainConfigs w self := by
      unfold mainConfigs withFileMissing
      simp only
      rw [if_neg hne]
    have hper : perTypeConfigs (withFileMissing w (configPath self T)) self = perTypeConfigs w self :=
      funext (perTypeConfigs_withFileMissing w self _ e hbad)
    unfold collectConfigs
    rw [hmain, hper]

/-- C6, at a `spotify.json` that cannot be parsed in an otherwise quiet world. -/
theorem malformed_file_as_missing_witness :
    "spotify" ∈ sourceTypes ∧
    malformedSpotifyWorld.readJson (configPath freshSources "spotify") =
      .error (.error "Unexpected token") ∧
    perTypeConfigs malformedSpotifyWorld freshSources "spotify" =
      envConfigs malformedSpotifyWorld "spotify" ∧
    collectConfigs malformedSpotifyWorld freshSources [] =
      collectConfigs (withFileMissing malformedSpotifyWorld (configPath freshSources "spotify"))
        freshSources [] :=
  have h := malformed_file_as_missing malformedSpotifyWorld freshSources "spotify" _ []
    (by decide) rfl
  ⟨by decide, rfl, h.1, h.2.2.2.2⟩

end MultiScrobbler
